import Mathlib

/-!
Verification development for the `pdfrw` PDF document loader
(`rst2pdf/pdfrw/pdfreader.py`).

The loader is shallowly embedded: the raw file is a list of bytes
(`List Char`), the external lexical token source (spec §6; `tokens.py` is
not part of the sources under verification) is modelled as a
position-sorted list of `(byte-offset, token-text)` pairs from which
`next` returns the first token at or after the current location, and the
loader state (`RState`) carries the indirect-object table, the deferred
set, the offset table and the warning/error counters.  Fatal conditions
(`source.exception`, Python exceptions) are an `Except` outcome that
preserves the state reached at the throw point; recorded errors
(`source.error`, `log.error`) and advisory warnings (`source.warning`,
`log.warning`) increment counters, matching the three severities of
spec §7.  The mutually recursive container parser carries a fuel
argument, decremented on every recursive call, so that `.error .fuelOut`
for every fuel value is a faithful witness of divergence of the source
program.
-/

namespace Pdfrw

/-- Whitespace characters stripped by Python `str.strip` / `str.split` /
`str.rstrip` (no argument): space, tab, LF, CR, VT, FF. -/
def isSpace (c : Char) : Bool :=
  c = ' ' ∨ c = '\t' ∨ c = '\n' ∨ c = '\r' ∨ c = '\x0b' ∨ c = '\x0c'

/-- Python slice-bound normalisation for a sequence of length `n`:
negative indices count from the end, then the result is clamped to
`[0, n]`. -/
def sliceBound (n : Nat) (i : Int) : Nat :=
  if i < 0 then ((n : Int) + i).toNat else min i.toNat n

/-- Python slicing `l[a:b]`. -/
def pyslice (l : List Char) (a b : Int) : List Char :=
  let lo := sliceBound l.length a
  let hi := sliceBound l.length b
  (l.drop lo).take (hi - lo)

/-- Python indexing `l[i]` (negative indices count from the end; out of
range is an `IndexError`, here `none`). -/
def pyget (l : List Char) (i : Int) : Option Char :=
  let j : Int := if i < 0 then (l.length : Int) + i else i
  if j < 0 then none else l.get? j.toNat

/-- Whether `sub` occurs in `l` starting exactly at position `i`. -/
def subAt (l sub : List Char) (i : Nat) : Bool :=
  sub.isPrefixOf (l.drop i)

/-- Python `str.find(sub, a, b)`: smallest index of an occurrence of
`sub` lying entirely inside the slice bounds, or `-1`. -/
def pyfind (l : List Char) (sub : String) (a b : Int) : Int :=
  let lo := sliceBound l.length a
  let hi := sliceBound l.length b
  match (List.range' lo (hi + 1 - (lo + sub.length))).find?
      (fun i => subAt l sub.data i) with
  | some i => (i : Int)
  | none => -1

/-- Python `str.rfind(sub, a)` (search to the end of the string):
largest index of an occurrence at or after `a`, or `none`
(`str.rindex` raises `ValueError` in that case). -/
def pyrfind (l : List Char) (sub : String) (a : Int) : Option Nat :=
  let lo := sliceBound l.length a
  let hi := l.length
  (List.range' lo (hi + 1 - (lo + sub.length))).foldl
    (fun acc i => if subAt l sub.data i then some i else acc) none

/-- Python `str.rstrip()` — strip trailing whitespace. -/
def pyrstrip (l : List Char) : List Char :=
  (l.reverse.dropWhile isSpace).reverse

/-- Helper for `splitlines`: accumulate the current (reversed) line. -/
def splitlinesAux : List Char → List Char → List (List Char)
  | [], cur => if cur.isEmpty then [] else [cur.reverse]
  | '\r' :: '\n' :: rest, cur => cur.reverse :: splitlinesAux rest []
  | '\r' :: rest, cur => cur.reverse :: splitlinesAux rest []
  | '\n' :: rest, cur => cur.reverse :: splitlinesAux rest []
  | c :: rest, cur => splitlinesAux rest (c :: cur)

/-- Python `str.splitlines()`: split on `\n`, `\r`, `\r\n`; a trailing
terminator does not produce an extra empty line. -/
def splitlines (l : List Char) : List (List Char) :=
  splitlinesAux l []

/-- Helper for `splitWs`: accumulate the current (reversed) word. -/
def splitWsAux : List Char → List Char → List (List Char)
  | [], cur => if cur.isEmpty then [] else [cur.reverse]
  | c :: rest, cur =>
    if isSpace c then
      if cur.isEmpty then splitWsAux rest []
      else cur.reverse :: splitWsAux rest []
    else splitWsAux rest (c :: cur)

/-- Python `str.split()` (no argument): split on whitespace runs,
discarding empty words. -/
def splitWs (l : List Char) : List (List Char) :=
  splitWsAux l []

/-- Value of a digit list, provided all characters are ASCII digits and
the list is nonempty. -/
def readDigits (l : List Char) : Option Nat :=
  if l ≠ [] ∧ l.all Char.isDigit then
    some (l.foldl (fun a c => a * 10 + (c.toNat - 48)) 0)
  else none

/-- Python `int(s)` on a string: strip whitespace, optional sign, then
decimal digits; anything else is a `ValueError` (`none`). -/
def pyInt (l : List Char) : Option Int :=
  let t := ((l.dropWhile isSpace).reverse.dropWhile isSpace).reverse
  match t with
  | '-' :: ds => (readDigits ds).map (fun n => -(n : Int))
  | '+' :: ds => (readDigits ds).map (fun n => (n : Int))
  | ds => (readDigits ds).map (fun n => (n : Int))

/-- Python `int(s)` for a token string. -/
def pyIntS (s : String) : Option Int :=
  pyInt s.data

/-- Python `str.isdigit()`. -/
def isdigitS (s : String) : Bool :=
  ¬ s.data.isEmpty ∧ s.data.all Char.isDigit

/-- IndirectKey: `(object number, generation number)`, the result of
`int()` on the two header tokens. -/
abbrev Key := Int × Int

/-- The offset table `source.obj_offsets`: a Python dict modelled as an
insertion-ordered association list with unique keys (all mutation goes
through `pmSet` / `pmSetdefault`). -/
abbrev PMap := List (Key × Int)

/-- First-match lookup (Python dict `get`). -/
def pmLookup (m : PMap) (k : Key) : Option Int :=
  (m.find? (fun p => decide (p.1 = k))).map (·.2)

/-- Python dict assignment `m[k] = v`: overwrite in place, else append. -/
def pmSet (m : PMap) (k : Key) (v : Int) : PMap :=
  if (pmLookup m k).isSome then
    m.map (fun p => if p.1 = k then (k, v) else p)
  else m ++ [(k, v)]

/-- Python dict `setdefault(k, v)`: insert only when absent. -/
def pmSetdefault (m : PMap) (k : Key) (v : Int) : PMap :=
  if (pmLookup m k).isSome then m else m ++ [(k, v)]

/-- Python dict `m.update(other)`: assign every entry of `other` in
iteration order. -/
def pmUpdate (m other : PMap) : PMap :=
  other.foldl (fun acc p => pmSet acc p.1 p.2) m

/-- The object model (spec §6, `objects.py` is external): a parsed PDF
value.  `pstr` is a token-valued object (`PdfObject`/`PdfName`/number),
`pdict` a dictionary with its private stream-payload slot, `parr` an
array, `pref` a `PdfIndirect` placeholder carrying only its key, and
`pnone` is Python `None`.  `pstr`/`pdict`/`parr` carry the settable
"indirect identity" tag. -/
inductive PObj : Type where
  | pstr : String → Option Key → PObj
  | pdict : List (String × PObj) → Option (List Char) → Option Key → PObj
  | parr : List PObj → Option Key → PObj
  | pref : Key → PObj
  | pnone : PObj

/-- Whether a value is a `PdfIndirect` placeholder. -/
def PObj.isPref : PObj → Bool
  | .pref _ => true
  | _ => false

/-- Whether a value is a `PdfDict`. -/
def PObj.isPdict : PObj → Bool
  | .pdict _ _ _ => true
  | _ => false

/-- Python `int(x)` on an object: token-valued objects parse as decimal
integers (`ValueError` on bad syntax); containers, placeholders and
`None` raise `TypeError`. -/
def pyIntObj : PObj → Except (Unit ⊕ Unit) Int
  | .pstr s _ => match pyIntS s with
    | some i => .ok i
    | none => .error (.inl ())
  | _ => .error (.inr ())

/-- The indirect-object table `self.indirect_objects`: a Python dict
from keys to placeholders or resolved values. -/
abbrev IMap := List (Key × PObj)

/-- Python dict `get` on the indirect-object table. -/
def ilookup (m : IMap) (k : Key) : Option PObj :=
  (m.find? (fun p => decide (p.1 = k))).map (·.2)

/-- Python dict assignment on the indirect-object table. -/
def iset (m : IMap) (k : Key) (v : PObj) : IMap :=
  if (ilookup m k).isSome then
    m.map (fun p => if p.1 = k then (k, v) else p)
  else m ++ [(k, v)]

/-- Dictionary-entry lookup (`obj.Length`, `node[typename]`, …). -/
def dlookup (m : List (String × PObj)) (k : String) : Option PObj :=
  (m.find? (fun p => decide (p.1 = k))).map (·.2)

/-- Python dict assignment for `result[key] = value` in `readdict`. -/
def dset (m : List (String × PObj)) (k : String) (v : PObj) :
    List (String × PObj) :=
  if (dlookup m k).isSome then
    m.map (fun p => if p.1 = k then (k, v) else p)
  else m ++ [(k, v)]

/-- A Python `set` of keys (the DeferredSet of spec §3): a list without
duplicates.  The no-duplicates invariant is part of the external set
type's representation, carried alongside the elements. -/
structure KeySet : Type where
  elts : List Key
  nodup : elts.Nodup

/-- Python `set.add`: insert if absent. -/
def KeySet.insert (s : KeySet) (k : Key) : KeySet :=
  if h : k ∈ s.elts then s
  else ⟨k :: s.elts, by rw [List.nodup_cons]; exact ⟨h, s.nodup⟩⟩

/-- Python `set.discard`-style removal (the `KeyError` of `set.remove`
on an absent key is checked at the call site). -/
def KeySet.erase (s : KeySet) (k : Key) : KeySet :=
  ⟨s.elts.erase k, s.nodup.erase k⟩

/-- The empty key set. -/
def KeySet.empty : KeySet :=
  ⟨[], List.nodup_nil⟩

/-- Loader state: the token source (`toks`, `fdata`, `floc`,
`tokstart`, `obj_offsets`, `all_offsets` live on `source` in the
source code), the loader-owned tables and the per-instance warning
flags.  `warnings` counts advisory warnings (`source.warning`,
`log.warning`), `errors` counts recorded non-fatal errors
(`source.error`, `log.error`). -/
structure RState : Type where
  toks : List (Nat × String)
  fdata : List Char
  floc : Int
  tokstart : Nat
  obj_offsets : PMap
  all_offsets : List Int
  indirect_objects : IMap
  deferred_objects : KeySet
  warnings : Nat
  errors : Nat
  warned_bad_stream_start : Bool
  warned_bad_stream_end : Bool

/-- Exceptions of the embedded program: `parseError` is
`source.exception` / `PdfParseError`; the others are the Python
exceptions the loader can raise; `fuelOut` is the model artifact marking
that the fuel budget was exhausted (so `fuelOut` at every fuel witnesses
divergence of the source program). -/
inductive PyExc : Type where
  | parseError : String → PyExc
  | stopIteration : PyExc
  | typeError : PyExc
  | attrError : PyExc
  | valueError : PyExc
  | indexError : PyExc
  | keyError : PyExc
  | fuelOut : PyExc
deriving DecidableEq

/-- Result of a stateful step: the state reached (preserved even at a
throw point, as Python mutations survive an exception) plus the
outcome. -/
abbrev PRes (α : Type) := RState × Except PyExc α

/-- Sequencing of stateful steps; an exception short-circuits while
keeping the state it was raised in. -/
def pbind {α β : Type} (r : PRes α) (f : RState → α → PRes β) : PRes β :=
  match r with
  | (st, .ok a) => f st a
  | (st, .error e) => (st, .error e)

/-- Token source `next()`: the first token at or after `floc`; moves
`floc` past it and records its start.  End of input raises
`StopIteration` (`none`). -/
def nextTok (st : RState) : Option (String × RState) :=
  match st.toks.find? (fun pt => decide ((pt.1 : Int) ≥ st.floc)) with
  | none => none
  | some (p, t) =>
    some (t, { st with floc := (p + t.length : Nat), tokstart := p })

/-- Token source `next()` as a stateful step. -/
def nextE (st : RState) : PRes String :=
  match nextTok st with
  | some (t, st') => (st', .ok t)
  | none => (st, .error .stopIteration)

/-- Token source `multiple(n)`: read up to `n` tokens as a batch,
stopping early at end of input. -/
def multipleTok : Nat → RState → List String × RState
  | 0, st => ([], st)
  | n + 1, st =>
    match nextTok st with
    | none => ([], st)
    | some (t, st') =>
      let r := multipleTok n st'
      (t :: r.1, r.2)

/-- Emit an advisory warning (`source.warning` / `log.warning`). -/
def warn (st : RState) : RState :=
  { st with warnings := st.warnings + 1 }

/-- Record a non-fatal error (`source.error` / `log.error`). -/
def recErr (st : RState) : RState :=
  { st with errors := st.errors + 1 }

/-- PdfReader.findindirect: return a previously loaded indirect object,
or create a placeholder for it (adding the key to the deferred set). -/
def findindirect (st : RState) (objnum gennum : PObj) : PRes PObj :=
  match pyIntObj objnum with
  | .error (.inl _) => (st, .error .valueError)
  | .error (.inr _) => (st, .error .typeError)
  | .ok o =>
    match pyIntObj gennum with
    | .error (.inl _) => (st, .error .valueError)
    | .error (.inr _) => (st, .error .typeError)
    | .ok g =>
      let key : Key := (o, g)
      match ilookup st.indirect_objects key with
      | some r => (st, .ok r)
      | none =>
        ({ st with
            indirect_objects := iset st.indirect_objects key (.pref key),
            deferred_objects := st.deferred_objects.insert key },
         .ok (.pref key))

/-- The `self.special` dispatch table set up in `__init__`: `<<` starts
a dictionary, `[` an array, `endobj` marks an empty object, and the
listed delimiters are unexpected. -/
inductive Special : Type where
  | sdict | sarr | sempty | sbad
deriving DecidableEq

/-- Lookup in the `self.special` dispatch table. -/
def specialOf (t : String) : Option Special :=
  if t = "<<" then some .sdict
  else if t = "[" then some .sarr
  else if t = "endobj" then some .sempty
  else if t = "\\" ∨ t = "(" ∨ t = ")" ∨ t = "<" ∨ t = ">" ∨ t = "\x7b"
      ∨ t = "\x7d" ∨ t = "]" ∨ t = ">>" ∨ t = "%" then some .sbad
  else none

mutual

/-- Dispatch on a special token: `<<` → `readdict`, `[` → `readarray`,
`endobj` → `empty_obj` (rewind the token source to the token start and
produce Python `None`, since `empty_obj` has no return statement),
delimiter → `badtoken` (fatal). -/
def dispatchF : Nat → Special → RState → PRes PObj
  | 0, _, st => (st, .error .fuelOut)
  | n + 1, .sdict, st => readdictF n st
  | n + 1, .sarr, st => readarrayLoopF n st []
  | _ + 1, .sempty, st => ({ st with floc := st.tokstart }, .ok .pnone)
  | _ + 1, .sbad, st => (st, .error (.parseError "Unexpected delimiter"))

/-- PdfReader.readdict: found a `<<` token; parse the tokens after
that. -/
def readdictF : Nat → RState → PRes PObj
  | 0, st => (st, .error .fuelOut)
  | n + 1, st =>
    pbind (nextE st) fun st tok => readdictLoopF n st [] tok

/-- The token loop of PdfReader.readdict, carrying the dictionary built
so far and the token under examination. -/
def readdictLoopF : Nat → RState → List (String × PObj) → String → PRes PObj
  | 0, st, _, _ => (st, .error .fuelOut)
  | n + 1, st, acc, tok =>
    if tok = ">>" then (st, .ok (.pdict acc none none))
    else if ¬ tok.startsWith "/" then
      (st, .error (.parseError "Expected PDF name object"))
    else
      pbind (nextE st) fun st value =>
      match specialOf value with
      | some sp =>
        pbind (dispatchF n sp st) fun st v =>
        pbind (nextE st) fun st tok2 =>
        readdictLoopF n st (dset acc tok v) tok2
      | none =>
        pbind (nextE st) fun st tok2 =>
        if isdigitS value ∧ isdigitS tok2 then
          pbind (nextE st) fun st r =>
          if r ≠ "R" then
            (st, .error (.parseError "Expected R following two integers"))
          else
            pbind (findindirect st (.pstr value none) (.pstr tok2 none))
              fun st v =>
            pbind (nextE st) fun st tok3 =>
            readdictLoopF n st (dset acc tok v) tok3
        else
          readdictLoopF n st (dset acc tok (.pstr value none)) tok2

/-- PdfReader.readarray: found a `[` token; iterate the token source,
folding `N G R` runs into indirect-reference placeholders (`]` breaks,
end of input ends the iteration). -/
def readarrayLoopF : Nat → RState → List PObj → PRes PObj
  | 0, st, _ => (st, .error .fuelOut)
  | n + 1, st, acc =>
    match nextTok st with
    | none => (st, .ok (.parr acc none))
    | some (value, st') =>
      if value = "]" then (st', .ok (.parr acc none))
      else if value = "R" then
        match acc.reverse with
        | [] => (st', .error .indexError)
        | generation :: rest1 =>
          match rest1 with
          | [] => (st', .error .indexError)
          | objnumv :: rest2 =>
            pbind (findindirect st' objnumv generation) fun st v =>
            readarrayLoopF n st (rest2.reverse ++ [v])
      else
        match specialOf value with
        | some sp =>
          pbind (dispatchF n sp st') fun st v =>
          readarrayLoopF n st (acc ++ [v])
        | none =>
          readarrayLoopF n st' (acc ++ [.pstr value none])

end

/-- PdfReader.findstream: after an object body, decide whether a
content stream follows and compute the payload start (skipping an
optional `\r` then an optional `\n`; a bare `\r` is tolerated once per
document with a warning). -/
def findstream (st : RState) (obj : PObj) (tok : String) : PRes Int :=
  if ¬ (obj.isPdict ∧ tok = "stream") then
    (st, .error (.parseError "Expected endobj or stream token"))
  else
    let startstream : Int := (st.tokstart : Int) + tok.length
    match pyget st.fdata startstream with
    | none => (st, .error .indexError)
    | some c0 =>
      let gotcr := c0 = '\r'
      let ss1 := startstream + (if gotcr then 1 else 0)
      match pyget st.fdata ss1 with
      | none => (st, .error .indexError)
      | some c1 =>
        let gotlf := c1 = '\n'
        let ss2 := ss1 + (if gotlf then 1 else 0)
        if gotlf then (st, .ok ss2)
        else if ¬ gotcr then
          (st, .error (.parseError "stream keyword not followed by newline"))
        else if st.warned_bad_stream_start then (st, .ok ss2)
        else ({ warn st with warned_bad_stream_start := true }, .ok ss2)

/-- The body of PdfReader.readstream after `/Length` has been read:
extract `length` bytes, check for `endstream endobj`, and otherwise run
the boundary-recovery heuristics of the source (one-byte shift back for
an extra `\r\n`, recorded errors for too-big/too-small lengths and
stray data). -/
def readstreamBody (st : RState) (entries : List (String × PObj))
    (ind : Option Key) (startstream length : Int) : PRes PObj :=
  let target := startstream + length
  let st1 := { st with floc := target }
  let mr := multipleTok 2 st1
  let endit := mr.1
  let st2 := mr.2
  let obj1 : PObj := .pdict entries (some (pyslice st2.fdata startstream target)) ind
  if endit = ["endstream", "endobj"] then (st2, .ok obj1)
  else
    let st3 := { st2 with warned_bad_stream_end := false }
    let maxstream : Int := (st3.fdata.length : Int) - 20
    let endstream := pyfind st3.fdata "endstream" startstream maxstream
    let st4 := { st3 with floc := startstream }
    let room := endstream - startstream
    if endstream < 0 then (recErr st4, .ok obj1)
    else if length = room + 1
        ∧ pyslice st4.fdata (startstream - 2) startstream = ['\r', '\n'] then
      (warn st4,
       .ok (.pdict entries (some (pyslice st4.fdata (startstream - 1) (target - 1))) ind))
    else
      let st5 := { st4 with floc := endstream }
      if length > room then
        (recErr st5, .ok (.pdict entries (some (pyslice st5.fdata startstream endstream)) ind))
      else if ¬ (pyrstrip (pyslice st5.fdata target endstream)).isEmpty then
        (recErr st5, .ok obj1)
      else
        let endobj := pyfind st5.fdata "endobj" endstream maxstream
        if endobj < 0 then (recErr st5, .ok obj1)
        else if pyrstrip (pyslice st5.fdata endstream endobj) ≠ "endstream".data then
          (recErr st5, .ok obj1)
        else (recErr st5, .ok obj1)

/-- PdfReader.readstream: read `/Length` (which must already be an
integer-valued token: `int(None)` and `int` of a container or
placeholder raise `TypeError`), then extract the payload. -/
def readstream (st : RState) (obj : PObj) (startstream : Int) : PRes PObj :=
  match obj with
  | .pdict entries _ ind =>
    match dlookup entries "/Length" with
    | none => (st, .error .typeError)
    | some lv =>
      match pyIntObj lv with
      | .error (.inl _) => (st, .error .valueError)
      | .error (.inr _) => (st, .error .typeError)
      | .ok length => readstreamBody st entries ind startstream length
  | _ => (st, .error .typeError)

/-- Python attribute assignment `obj.indirect = key`: succeeds on any
object value, but raises `AttributeError` on `None`. -/
def setIndirect : PObj → Key → Option PObj
  | .pstr s _, k => some (.pstr s (some k))
  | .pdict e s _, k => some (.pdict e s (some k))
  | .parr l _, k => some (.parr l (some k))
  | .pref k0, _ => some (.pref k0)
  | .pnone, _ => none

/-- Resynchronisation step of PdfReader.loadindirect when the three
header tokens at the stated offset do not match `<num> <gen> obj`:
search the whole buffer for `<newline><num> <gen> obj`; `ok false`
means give up with a warning (the caller returns `None`), `ok true`
means continue at the repositioned location with a warning. -/
def loadindirectResync (st : RState) (key : Key) (offset : Int) : PRes Bool :=
  let st := { st with floc := offset }
  pbind (nextE st) fun st _ =>
    let objheader := toString key.1 ++ " " ++ toString key.2 ++ " obj"
    let f1 := pyfind st.fdata ("\n" ++ objheader) 0 (st.fdata.length : Int)
    let o2 := if f1 + 1 ≠ 0 then f1 + 1
      else (pyfind st.fdata ("\r" ++ objheader) 0 (st.fdata.length : Int)) + 1
    if o2 = 0 then (warn st, .ok false)
    else
      match pyget st.fdata (o2 - 1) with
      | none => (st, .error .indexError)
      | some pc =>
        if pyfind st.fdata (String.mk (pc :: objheader.data)) o2
            (st.fdata.length : Int) > 0 then
          (warn st, .ok false)
        else
          (warn { st with floc := o2 + (objheader.length : Int) }, .ok true)

/-- The tail of PdfReader.loadindirect after the header has been
validated (or resynchronised): parse one value, store it, remove the
key from the deferred set (`set.remove` raises `KeyError` when
absent), tag it with its key (`AttributeError` on `None` — the
`empty_obj` case), and read the stream if `endobj` does not follow.
Python mutates one shared object; the model re-stores the object in the
table after each mutation. -/
def loadindirectParseF (fuel : Nat) (st : RState) (key : Key) : PRes PObj :=
  pbind (nextE st) fun st tokObj =>
  pbind (match specialOf tokObj with
         | some sp => dispatchF fuel sp st
         | none => (st, .ok (.pstr tokObj none))) fun st obj =>
  let st := { st with indirect_objects := iset st.indirect_objects key obj }
  if key ∉ st.deferred_objects.elts then (st, .error .keyError)
  else
    let st := { st with deferred_objects := st.deferred_objects.erase key }
    match setIndirect obj key with
    | none => (st, .error .attrError)
    | some obj1 =>
      let st := { st with indirect_objects := iset st.indirect_objects key obj1 }
      pbind (nextE st) fun st tok =>
      if tok ≠ "endobj" then
        pbind (findstream st obj1 tok) fun st ss =>
        pbind (readstream st obj1 ss) fun st obj2 =>
        ({ st with indirect_objects := iset st.indirect_objects key obj2 }, .ok obj2)
      else (st, .ok obj1)

/-- The body of PdfReader.loadindirect for a key whose table entry is
still a placeholder: look up the offset (default 0; offset 0 warns and
returns `None` without touching any table), validate the object
header, resynchronise on mismatch, then parse. -/
def loadindirectBodyF (fuel : Nat) (st : RState) (key : Key) : PRes PObj :=
  let offset := (pmLookup st.obj_offsets key).getD 0
  if offset = 0 then (warn st, .ok .pnone)
  else
    let st := { st with floc := offset }
    let mr := multipleTok 3 st
    let objid := mr.1
    let st := mr.2
    let okhdr := objid.length = 3 ∧ isdigitS (objid.getD 0 "")
      ∧ pyIntS (objid.getD 0 "") = some key.1
      ∧ isdigitS (objid.getD 1 "") ∧ pyIntS (objid.getD 1 "") = some key.2
      ∧ objid.getD 2 "" = "obj"
    if okhdr then loadindirectParseF fuel st key
    else
      pbind (loadindirectResync st key offset) fun st cont =>
      if cont then loadindirectParseF fuel st key else (st, .ok .pnone)

/-- PdfReader.loadindirect: resolve a key.  A non-placeholder table
entry (including an absent key, where `dict.get` yields `None`) is
returned as-is without re-resolving. -/
def loadindirectF (fuel : Nat) (st : RState) (key : Key) : PRes PObj :=
  match ilookup st.indirect_objects key with
  | some r => if ¬ r.isPref then (st, .ok r) else loadindirectBodyF fuel st key
  | none => (st, .ok .pnone)

/-- Python `range(a, b)` over integers. -/
def intRange (a b : Int) : List Int :=
  (List.range (b - a).toNat).map (fun i => a + i)

/-- Inner loop of the strict phase of PdfReader.parsexref: one
subsection of `count` fixed-format rows `<offset> <generation>
<'n'|'f'>`; only `n` rows with non-zero offset populate the offset
table (insert-if-absent) and the `all_offsets` list; any other flag
raises `ValueError` (caught by the caller, triggering recovery). -/
def parsexrefRows : List Int → RState → PRes Unit
  | [], st => (st, .ok ())
  | objnum :: rest, st =>
    pbind (nextE st) fun st t1 =>
    match pyIntS t1 with
    | none => (st, .error .valueError)
    | some offset =>
      pbind (nextE st) fun st t2 =>
      match pyIntS t2 with
      | none => (st, .error .valueError)
      | some generation =>
        pbind (nextE st) fun st inuse =>
        if inuse = "n" then
          let st := if offset ≠ 0 then
            { st with
                obj_offsets := pmSetdefault st.obj_offsets (objnum, generation) offset,
                all_offsets := st.all_offsets ++ [offset] }
            else st
          parsexrefRows rest st
        else if inuse ≠ "f" then (st, .error .valueError)
        else parsexrefRows rest st

/-- Strict phase of PdfReader.parsexref: subsections
`<first-num> <count>` until the `trailer` token; any exception
(non-integer token, bad flag, end of input) aborts the strict phase. -/
def parsexrefStrictF : Nat → RState → PRes Unit
  | 0, st => (st, .error .fuelOut)
  | n + 1, st =>
    pbind (nextE st) fun st tok =>
    if tok = "trailer" then (st, .ok ())
    else match pyIntS tok with
    | none => (st, .error .valueError)
    | some startobj =>
      pbind (nextE st) fun st cnt =>
      match pyIntS cnt with
      | none => (st, .error .valueError)
      | some count =>
        pbind (parsexrefRows (intRange startobj (startobj + count)) st) fun st _ =>
        parsexrefStrictF n st

/-- Line-oriented recovery loop of PdfReader.parsexref over the split
lines of the recovery range: a 2-token line resets the current object
number; a 3-token line whose flag is `n` and offset non-zero inserts
(insert-if-absent) and always increments the object number; an empty
line is skipped; any other line logs an error and raises (the payload
of `.error` is the partially updated state: offset table, offsets list
and the count of `log.error` calls, since Python mutations before the
exception persist).  A 3-token line before any 2-token line is a
`NameError` on the unbound object number. -/
def recoverLines : Option Int → List (List Char) → PMap → List Int →
    Except (PMap × List Int × Nat) (PMap × List Int)
  | _, [], offs, alls => .ok (offs, alls)
  | objnum, line :: rest, offs, alls =>
    match splitWs line with
    | [a, _] =>
      match pyInt a with
      | none => .error (offs, alls, 0)
      | some o => recoverLines (some o) rest offs alls
    | [a, b, c] =>
      match pyInt a, pyInt b with
      | some off, some gen =>
        match objnum with
        | none => .error (offs, alls, 0)
        | some onum =>
          if off ≠ 0 ∧ c = ['n'] then
            recoverLines (some (onum + 1)) rest
              (pmSetdefault offs (onum, gen) off) (alls ++ [off])
          else recoverLines (some (onum + 1)) rest offs alls
      | _, _ => .error (offs, alls, 0)
    | [] => recoverLines objnum rest offs alls
    | _ => .error (offs, alls, 1)

/-- Recovery phase of PdfReader.parsexref: re-scan the bytes from the
section start up to the result of `fdata.rindex('trailer', start)` —
the LAST occurrence of `trailer` at or after `start` — line by line;
on success warn `Badly formatted xref table`, seek to the `trailer`
and consume it; on any failure (including a missing `trailer` or end
of input after it) seek back to the start and raise the fatal
`Invalid table format`. -/
def xrefRecovery (st : RState) (start : Int) : PRes Unit :=
  match pyrfind st.fdata "trailer" start with
  | none => ({ st with floc := start }, .error (.parseError "Invalid table format"))
  | some endpos =>
    match recoverLines none (splitlines (pyslice st.fdata start (endpos : Int)))
        st.obj_offsets st.all_offsets with
    | .error (offs, alls, k) =>
      ({ st with obj_offsets := offs, all_offsets := alls,
                 errors := st.errors + k, floc := start },
       .error (.parseError "Invalid table format"))
    | .ok (offs, alls) =>
      let st := warn { st with obj_offsets := offs, all_offsets := alls }
      let st := { st with floc := (endpos : Int) }
      match nextTok st with
      | none => ({ st with floc := start }, .error (.parseError "Invalid table format"))
      | some (_, st') => (st', .ok ())

/-- PdfReader.parsexref: expect the `xref` keyword, run the strict
phase, and on any strict-grammar violation fall back to the
line-oriented recovery over the same start position (the `.fuelOut`
model artifact is propagated instead, so it never masks a result). -/
def parsexrefF (fuel : Nat) (st : RState) : PRes Unit :=
  pbind (nextE st) fun st tok =>
  if tok ≠ "xref" then (st, .error (.parseError "Expected xref keyword"))
  else
    let start := st.floc
    match parsexrefStrictF fuel st with
    | (st', .ok ()) => (st', .ok ())
    | (st', .error .fuelOut) => (st', .error .fuelOut)
    | (st', .error _) => xrefRecovery st' start

/-- Modelled from the spec: PdfDict item access (`objects.py` is not
under the sources).  The Dictionary is an ordered name→value mapping
(spec §3, §6); a key that is absent yields the null value, so that a
node without `/Type` falls into the non-fatal "any other type" branch
required by spec §4.5.  Item access on a non-dictionary (`None`, a
placeholder, an array element of the wrong shape, a string) raises
`TypeError`. -/
def nodeGet (node : PObj) (k : String) : Except PyExc PObj :=
  match node with
  | .pdict entries _ _ => .ok ((dlookup entries k).getD .pnone)
  | _ => .error .typeError

/-- Name comparison `nodetype == PdfName.X`: PDF names compare by their
token text. -/
def isName (v : PObj) (s : String) : Bool :=
  match v with
  | .pstr t _ => t = s
  | _ => false

/-- Python iteration `for node in kids`: arrays iterate their elements,
dictionaries their keys, strings their characters; `None` and
placeholders are not iterable (`TypeError`). -/
def iterNode : PObj → Except PyExc (List PObj)
  | .parr l _ => .ok l
  | .pdict entries _ _ => .ok (entries.map (fun p => .pstr p.1 none))
  | .pstr s _ => .ok (s.data.map (fun c => .pstr (String.mk [c]) none))
  | _ => .error .typeError

mutual

/-- The recursive generator `readnode` inside PdfReader.readpages: a
`/Page` node yields itself; a `/Pages` node yields the concatenated
flattening of its `/Kids`; a `/Catalog` node recurses into its
`/Pages`; any other type logs an error (counted in the second
component) and yields nothing.  An exception carries the number of
errors logged before it was raised. -/
def readnodeF : Nat → PObj → Except (PyExc × Nat) (List PObj × Nat)
  | 0, _ => .error (.fuelOut, 0)
  | n + 1, node =>
    match nodeGet node "/Type" with
    | .error e => .error (e, 0)
    | .ok t =>
      if isName t "/Page" then .ok ([node], 0)
      else if isName t "/Pages" then
        match nodeGet node "/Kids" with
        | .error e => .error (e, 0)
        | .ok kids =>
          match iterNode kids with
          | .error e => .error (e, 0)
          | .ok children => readnodesF n children
      else if isName t "/Catalog" then
        match nodeGet node "/Pages" with
        | .error e => .error (e, 0)
        | .ok p => readnodeF n p
      else .ok ([], 1)

/-- Flatten a list of child nodes in order, accumulating pages and
logged errors. -/
def readnodesF : Nat → List PObj → Except (PyExc × Nat) (List PObj × Nat)
  | 0, _ => .error (.fuelOut, 0)
  | _ + 1, [] => .ok ([], 0)
  | n + 1, c :: cs =>
    match readnodeF n c with
    | .error (e, k) => .error (e, k)
    | .ok (ps, k) =>
      match readnodesF n cs with
      | .error (e, k') => .error (e, k + k')
      | .ok (ps', k') => .ok (ps ++ ps', k + k')

end

/-- PdfReader.readpages: run the walk; `AttributeError` and `TypeError`
are caught, log `Invalid page tree` (one more error) and yield the
empty page list; any other exception would propagate (the `.fuelOut`
artifact included). -/
def readpagesF (fuel : Nat) (node : PObj) : Except PyExc (List PObj × Nat) :=
  match readnodeF fuel node with
  | .ok r => .ok r
  | .error (.typeError, k) => .ok ([], k + 1)
  | .error (.attrError, k) => .ok ([], k + 1)
  | .error (e, _) => .error e

/-- One xref section as consumed by the chain loop of
PdfReader.`__init__`: the offset map its `parsexref` produces into the
fresh `source.obj_offsets`, the placeholder keys reading its trailer
dictionary creates via `findindirect`, the trailer's `/Prev` value,
an abstract identifier for the rest of the trailer's content, and
whether the token after the trailer dictionary is `startxref`. -/
structure XSection : Type where
  offs : PMap
  adds : List Key
  prev : Option Int
  tdata : Nat
  tokAfter : Bool

/-- Result of the chain loop: the merged offset table, the final
indirect-object table, the adopted trailer (its `/Prev` and its other
content), and the warnings emitted. -/
structure ChainOut : Type where
  offsets : PMap
  indirect : IMap
  trailerPrev : Option Int
  trailerData : Nat
  warnings : Nat

/-- Placeholder creation while reading a trailer dictionary:
`findindirect` adds a placeholder only for keys not already present. -/
def addPlaceholders (m : IMap) (ks : List Key) : IMap :=
  ks.foldl
    (fun acc k => match ilookup acc k with
      | some _ => acc
      | none => iset acc k (.pref k)) m

/-- The `while 1` chain loop of PdfReader.`__init__` (lines 366–398),
with one `XSection` supplying what parsing at the current location
yields.  Each iteration starts from a fresh `obj_offsets`; reading the
trailer adds placeholders; on the first `/Prev` the indirect table and
the trailer (with `/Prev` cleared) are snapshotted; each chained
section's offset map is appended to `xref_table_list` and the indirect
table cleared.  After the chain, the section maps are merged in
reversed order on top of the last section's map, the snapshotted
indirect table restored and the snapshotted trailer adopted.  `none`
models running off the supplied chain (a `/Prev` with no parseable
section) or the unreachable inconsistent accumulator states. -/
def chainLoopModel : List XSection → List PMap → IMap →
    Option (IMap × Option Int × Nat) → Nat → Option ChainOut
  | [], _, _, _, _ => none
  | s :: rest, xlist, ind, orig, w =>
    let ind := addPlaceholders ind s.adds
    let w := if s.tokAfter = false ∧ xlist = [] then w + 1 else w
    match s.prev with
    | none =>
      if xlist.isEmpty then some ⟨s.offs, ind, none, s.tdata, w⟩
      else
        match orig with
        | none => none
        | some (oind, oprev, otdata) =>
          some ⟨List.foldl pmUpdate s.offs xlist.reverse, oind, oprev, otdata, w⟩
    | some _ =>
      let orig := if xlist.isEmpty then some (ind, (none : Option Int), s.tdata) else orig
      chainLoopModel rest (xlist ++ [s.offs]) [] orig w

/-- The chain loop started on an empty indirect table (as in
`__init__`, which initialises `indirect_objects = {}` just before). -/
def initChainModel (secs : List XSection) : Option ChainOut :=
  chainLoopModel secs [] [] none 0

/-- The inner `for key in new` loop of PdfReader.read_all: load each
key, recording every key on which `loadindirect` is invoked; an
exception aborts the remaining iterations (and propagates). -/
def loadKeysF (fuel : Nat) : RState → List Key → List Key →
    RState × List Key × Option PyExc
  | st, [], log => (st, log, none)
  | st, k :: ks, log =>
    match loadindirectF fuel st k with
    | (st', .ok _) => loadKeysF fuel st' ks (log ++ [k])
    | (st', .error e) => (st', log ++ [k], some e)

/-- The `while 1` sweep loop of PdfReader.read_all: `new` is the set of
deferred keys not yet attempted; an empty `new` exits; otherwise
`prev` absorbs the current deferred set before the loads run.  The
first component of the result is the final state, the second the list
of keys passed to `loadindirect`, the third the escaping exception if
any (`some .fuelOut` only when the fuel model artifact fires). -/
def read_allLoopF : Nat → Nat → RState → List Key → List Key →
    RState × List Key × Option PyExc
  | 0, _, st, _, log => (st, log, some .fuelOut)
  | n + 1, pfuel, st, prev, log =>
    let new := st.deferred_objects.elts.filter (fun k => decide (k ∉ prev))
    if new = [] then (st, log, none)
    else
      let prev' := prev ++ st.deferred_objects.elts.filter (fun k => decide (k ∉ prev))
      match loadKeysF pfuel st new log with
      | (st', log', none) => read_allLoopF n pfuel st' prev' log'
      | (st', log', some e) => (st', log', some e)

/-- PdfReader.read_all: force-resolve all deferred objects. -/
def read_allF (fuel pfuel : Nat) (st : RState) :
    RState × List Key × Option PyExc :=
  read_allLoopF fuel pfuel st [] []

/-- A well-formed trailer chain: every section but the last carries a
`/Prev`, the last does not. -/
def chainWF : List XSection → Prop
  | [] => False
  | [s] => s.prev = none
  | s :: rest => s.prev.isSome ∧ chainWF rest

/-- Whether `read_all` can never complete, whatever fuel the model is
given: since the fuel is decremented on every recursive call, this is
a faithful statement that the source program's loop runs forever on
this state. -/
def read_allDiverges (st : RState) : Prop :=
  ∀ fuel pfuel : Nat, (read_allF fuel pfuel st).2.2 = some .fuelOut

/-- A concrete newest section: binds keys (1,0)↦100 and (2,0)↦110,
chains to an older section via `/Prev`. -/
def c1sectionA : XSection :=
  ⟨[((1, 0), 100), ((2, 0), 110)], [], some 50, 7, true⟩

/-- A concrete oldest section: binds (1,0)↦10 and (3,0)↦30, no
`/Prev`; its trailer references object (9,0). -/
def c1sectionB : XSection :=
  ⟨[((1, 0), 10), ((3, 0), 30)], [(9, 0)], none, 9, true⟩

/-- A loader state for a file containing the bodiless indirect object
`7 0 obj endobj` at offset 1, with its key deferred and its offset
registered. -/
def c7state : RState :=
  { toks := [(1, "7"), (3, "0"), (5, "obj"), (9, "endobj")],
    fdata := "\n7 0 obj endobj".data,
    floc := 0, tokstart := 0,
    obj_offsets := [((7, 0), 1)], all_offsets := [],
    indirect_objects := [((7, 0), .pref (7, 0))],
    deferred_objects := ⟨[(7, 0)], by decide⟩,
    warnings := 0, errors := 0,
    warned_bad_stream_start := false, warned_bad_stream_end := false }

/-- A loader state holding a deferred placeholder for key (5,0) that is
absent from the offset table. -/
def c2state : RState :=
  { toks := [], fdata := [], floc := 0, tokstart := 0,
    obj_offsets := [], all_offsets := [],
    indirect_objects := [((5, 0), .pref (5, 0))],
    deferred_objects := ⟨[(5, 0)], by decide⟩,
    warnings := 0, errors := 0,
    warned_bad_stream_start := false, warned_bad_stream_end := false }

/-- A loader state whose table already holds a resolved value for key
(3,0). -/
def c2resolvedState : RState :=
  { toks := [], fdata := [], floc := 0, tokstart := 0,
    obj_offsets := [], all_offsets := [],
    indirect_objects := [((3, 0), .pstr "42" (some (3, 0)))],
    deferred_objects := ⟨[], by decide⟩,
    warnings := 0, errors := 0,
    warned_bad_stream_start := false, warned_bad_stream_end := false }

/-- A loader state for a file containing `5 0 obj [ endobj` at
offset 1: the array parser meets the stray `endobj`, `empty_obj`
rewinds the token source, and the `for value in source` loop re-reads
the same token forever. -/
def c10state : RState :=
  { toks := [(1, "5"), (3, "0"), (5, "obj"), (9, "["), (11, "endobj")],
    fdata := "\n5 0 obj [ endobj".data,
    floc := 0, tokstart := 0,
    obj_offsets := [((5, 0), 1)], all_offsets := [],
    indirect_objects := [((5, 0), .pref (5, 0))],
    deferred_objects := ⟨[(5, 0)], by decide⟩,
    warnings := 0, errors := 0,
    warned_bad_stream_start := false, warned_bad_stream_end := false }

/-- The fixed point of the diverging array loop on `c10state`: location
rewound to the start of the stray `endobj` token. -/
def c10arrState : RState :=
  { c10state with floc := 11, tokstart := 11 }

/-- The state from which the array parse of `c10state` starts (the `[`
token has just been consumed). -/
def c10startState : RState :=
  { c10state with floc := 10, tokstart := 9 }

/-- A loader state whose file holds `1 0 obj << /Length 4 >>` followed
by `stream\nABCD\nendstream endobj`: a correct `/Length`. -/
def c4state : RState :=
  { toks := [(1, "1"), (3, "0"), (5, "obj"), (9, "<<"), (12, "/Length"),
      (20, "4"), (22, ">>"), (25, "stream"), (37, "endstream"), (47, "endobj")],
    fdata := "\n1 0 obj\n<< /Length 4 >>\nstream\nABCD\nendstream endobj".data
      ++ List.replicate 30 ' ',
    floc := 0, tokstart := 25,
    obj_offsets := [((1, 0), 1)], all_offsets := [],
    indirect_objects := [((1, 0), .pref (1, 0))],
    deferred_objects := ⟨[(1, 0)], by decide⟩,
    warnings := 0, errors := 0,
    warned_bad_stream_start := false, warned_bad_stream_end := false }

/-- A loader state whose stream payload is one byte short because of an
extra `\r\n` before it: `stream\r\nAB\nendstream endobj` with
`/Length 4` (the gap to `endstream` is 3 = Length − 1, and the two
bytes before the payload start are `\r\n`). -/
def c5state : RState :=
  { toks := [(1, "1"), (3, "0"), (5, "obj"), (9, "<<"), (12, "/Length"),
      (20, "4"), (22, ">>"), (25, "stream"), (36, "endstream"), (46, "endobj")],
    fdata := "\n1 0 obj\n<< /Length 4 >>\nstream\r\nAB\nendstream endobj".data
      ++ List.replicate 30 ' ',
    floc := 0, tokstart := 25,
    obj_offsets := [((1, 0), 1)], all_offsets := [],
    indirect_objects := [((1, 0), .pref (1, 0))],
    deferred_objects := ⟨[(1, 0)], by decide⟩,
    warnings := 0, errors := 0,
    warned_bad_stream_start := false, warned_bad_stream_end := false }

/-- A loader state whose declared `/Length 9` exceeds the distance 3
from the payload start to the next `endstream`:
`stream\nAB\nendstream endobj`. -/
def c6state : RState :=
  { toks := [(1, "1"), (3, "0"), (5, "obj"), (9, "<<"), (12, "/Length"),
      (20, "9"), (22, ">>"), (25, "stream"), (35, "endstream"), (45, "endobj")],
    fdata := "\n1 0 obj\n<< /Length 9 >>\nstream\nAB\nendstream endobj".data
      ++ List.replicate 30 ' ',
    floc := 0, tokstart := 25,
    obj_offsets := [((1, 0), 1)], all_offsets := [],
    indirect_objects := [((1, 0), .pref (1, 0))],
    deferred_objects := ⟨[(1, 0)], by decide⟩,
    warnings := 0, errors := 0,
    warned_bad_stream_start := false, warned_bad_stream_end := false }

/-- Well-formedness of a recovery range for the line-oriented xref
recovery, given the current object number: every line is empty, a
2-token line with an integer first token, or a 3-token line with two
integer tokens appearing only when an object number is already bound
(otherwise the unbound `objnum` is a fatal `NameError`). -/
def wfLines : Option Int → List (List Char) → Prop
  | _, [] => True
  | onum, l :: rest =>
    match splitWs l with
    | [] => wfLines onum rest
    | [a, _b] => ∃ v, pyInt a = some v ∧ wfLines (some v) rest
    | [a, b, _c] => (∃ av, pyInt a = some av) ∧ (∃ bv, pyInt b = some bv) ∧
        ∃ q, onum = some q ∧ wfLines (some (q + 1)) rest
    | _ => False

/-- The offsets the line-oriented recovery inserts: one per 3-token
line whose flag is `n` and whose offset is non-zero, in order. -/
def nOffs : List (List Char) → List Int
  | [] => []
  | l :: rest =>
    match splitWs l with
    | [a, _b, c] =>
      match pyInt a with
      | some off =>
        if off ≠ 0 ∧ c = ['n'] then off :: nOffs rest else nOffs rest
      | none => nOffs rest
    | _ => nOffs rest

/-- A loader state for a chained document: a first xref section with a
malformed subsection-count line (`0 x`), its own `trailer`, a trailer
dictionary, and a second `trailer` keyword later in the file. -/
def c3state : RState :=
  { toks := [(0, "xref"), (5, "0"), (7, "x"), (9, "0000000015"),
      (20, "00000"), (26, "n"), (28, "trailer"), (36, "<<"), (39, "/ID"),
      (43, "junk"), (48, ">>"), (51, "trailer")],
    fdata := "xref\n0 x\n0000000015 00000 n\ntrailer\n<< /ID junk >>\ntrailer".data,
    floc := 0, tokstart := 0,
    obj_offsets := [], all_offsets := [],
    indirect_objects := [], deferred_objects := ⟨[], by decide⟩,
    warnings := 0, errors := 0,
    warned_bad_stream_start := false, warned_bad_stream_end := false }

/-- A loader state for a single-section file whose xref table has a
malformed subsection-count line (`0 x`) and exactly one `trailer`. -/
def c3okstate : RState :=
  { toks := [(0, "xref"), (5, "0"), (7, "x"), (9, "0000000015"),
      (20, "00000"), (26, "n"), (28, "trailer"), (36, "<<"), (39, ">>")],
    fdata := "xref\n0 x\n0000000015 00000 n\ntrailer\n<< >>".data,
    floc := 0, tokstart := 0,
    obj_offsets := [], all_offsets := [],
    indirect_objects := [], deferred_objects := ⟨[], by decide⟩,
    warnings := 0, errors := 0,
    warned_bad_stream_start := false, warned_bad_stream_end := false }

/-! Lookup laws of the Python-dict model. -/

theorem pmLookup_cons (p : Key × Int) (m : PMap) (k : Key) :
    pmLookup (p :: m) k = if p.1 = k then some p.2 else pmLookup m k := by
  unfold pmLookup
  by_cases h : p.1 = k
  · rw [List.find?_cons_of_pos _ (by simp [h])]
    simp [h]
  · rw [List.find?_cons_of_neg _ (by simp [h])]
    simp [h]

theorem pmLookup_append (m m' : PMap) (k : Key) :
    pmLookup (m ++ m') k = (pmLookup m k).or (pmLookup m' k) := by
  unfold pmLookup
  rw [List.find?_append]
  cases List.find? (fun p => decide (p.1 = k)) m <;> simp [Option.or]

theorem pmLookup_eq_none (m : PMap) (k : Key) (h : k ∉ m.map Prod.fst) :
    pmLookup m k = none := by
  unfold pmLookup
  rw [List.find?_eq_none.mpr]
  · rfl
  · intro x hx
    simp only [decide_eq_true_eq]
    intro hk
    exact h (by rw [← hk]; exact List.mem_map_of_mem Prod.fst hx)

theorem pmLookup_mapSet (m : PMap) (k : Key) (v : Int) (k' : Key) :
    pmLookup (m.map (fun p => if p.1 = k then (k, v) else p)) k' =
      if k' = k then (pmLookup m k).map (fun _ => v) else pmLookup m k' := by
  induction m with
  | nil => by_cases h : k' = k <;> simp [pmLookup, h]
  | cons p m ih =>
    simp only [List.map_cons, pmLookup_cons, ih]
    by_cases hp : p.1 = k
    · by_cases hk : k' = k
      · subst hk
        simp [hp]
      · simp [hp, hk, Ne.symm hk]
    · by_cases hk : k' = k
      · subst hk
        simp [hp]
      · simp [hp, hk]

theorem pmLookup_pmSet (m : PMap) (k : Key) (v : Int) (k' : Key) :
    pmLookup (pmSet m k v) k' = if k' = k then some v else pmLookup m k' := by
  unfold pmSet
  by_cases hs : (pmLookup m k).isSome
  · rw [if_pos hs, pmLookup_mapSet]
    by_cases hk : k' = k
    · rw [if_pos hk, if_pos hk]
      obtain ⟨w, hw⟩ := Option.isSome_iff_exists.mp hs
      rw [hw]
      rfl
    · rw [if_neg hk, if_neg hk]
  · rw [if_neg hs, pmLookup_append]
    by_cases hk : k' = k
    · have hnone : pmLookup m k' = none := by
        rw [hk]
        exact Option.not_isSome_iff_eq_none.mp hs
      rw [hnone, if_pos hk, pmLookup_cons, if_pos hk.symm]
      rfl
    · rw [if_neg hk, pmLookup_cons, if_neg (Ne.symm hk)]
      show (pmLookup m k').or (pmLookup [] k') = _
      cases pmLookup m k' <;> rfl

theorem pmLookup_pmUpdate (m o : PMap) (k : Key)
    (ho : (o.map Prod.fst).Nodup) :
    pmLookup (pmUpdate m o) k = (pmLookup o k).or (pmLookup m k) := by
  induction o generalizing m with
  | nil =>
    show pmLookup m k = (pmLookup [] k).or (pmLookup m k)
    cases pmLookup m k <;> rfl
  | cons p o ih =>
    rw [List.map_cons, List.nodup_cons] at ho
    show pmLookup (pmUpdate (pmSet m p.1 p.2) o) k = _
    rw [ih _ ho.2, pmLookup_pmSet, pmLookup_cons]
    by_cases hk : p.1 = k
    · rw [if_pos hk, if_pos hk.symm,
        pmLookup_eq_none o k (by rw [← hk]; exact ho.1)]
      rfl
    · rw [if_neg hk, if_neg (Ne.symm hk)]

theorem findSome?_singleton {α β : Type} (f : α → Option β) (a : α) :
    List.findSome? f [a] = f a := by
  cases h : f a
  · rw [List.findSome?_cons_of_isNone _ (by simp [h]), List.findSome?_nil]
  · rw [List.findSome?_cons_of_isSome _ (by simp [h])]
    exact h

theorem pmLookup_foldl (l : List PMap) (m : PMap) (k : Key)
    (hl : ∀ o ∈ l, (o.map Prod.fst).Nodup) :
    pmLookup (List.foldl pmUpdate m l) k =
      (List.findSome? (fun o => pmLookup o k) l.reverse).or (pmLookup m k) := by
  induction l generalizing m with
  | nil =>
    show pmLookup m k = Option.or none (pmLookup m k)
    cases pmLookup m k <;> rfl
  | cons o l ih =>
    rw [List.foldl_cons, ih _ (fun x hx => hl x (List.mem_cons_of_mem o hx)),
      pmLookup_pmUpdate m o k (hl o (List.mem_cons_self o l)),
      List.reverse_cons, List.findSome?_append, Option.or_assoc,
      findSome?_singleton]

theorem findSome?_cons_or {α β : Type} (f : α → Option β) (a : α) (l : List α) :
    List.findSome? f (a :: l) = (f a).or (List.findSome? f l) := by
  cases h : f a
  · rw [List.findSome?_cons_of_isNone _ (by simp [h])]
    rfl
  · rw [List.findSome?_cons_of_isSome _ (by simp [h])]
    rw [h]
    rfl

/-- One-step unfolding of the chain loop on a cons cell. -/
theorem chainLoopModel_cons (s : XSection) (rest : List XSection)
    (xlist : List PMap) (ind : IMap) (orig : Option (IMap × Option Int × Nat))
    (w : Nat) :
    chainLoopModel (s :: rest) xlist ind orig w =
      (let ind := addPlaceholders ind s.adds
       let w := if s.tokAfter = false ∧ xlist = [] then w + 1 else w
       match s.prev with
       | none =>
         if xlist.isEmpty then some ⟨s.offs, ind, none, s.tdata, w⟩
         else
           match orig with
           | none => none
           | some (oind, oprev, otd) =>
             some ⟨List.foldl pmUpdate s.offs xlist.reverse, oind, oprev, otd, w⟩
       | some _ =>
         let orig := if xlist.isEmpty then some (ind, (none : Option Int), s.tdata) else orig
         chainLoopModel rest (xlist ++ [s.offs]) [] orig w) := rfl

/-- Closed form of the chain loop once at least one `/Prev` has been
followed: the result merges all accumulated section maps (in reversed
order) on top of the final section's map, restores the snapshotted
indirect table and adopts the snapshotted trailer. -/
theorem chainLoop_closed (secs : List XSection) :
    chainWF secs →
    ∀ (xlist : List PMap) (ind oind : IMap) (oprev : Option Int) (otd w : Nat),
    xlist ≠ [] →
    ∃ last, secs.getLast? = some last ∧
      chainLoopModel secs xlist ind (some (oind, oprev, otd)) w =
        some ⟨List.foldl pmUpdate last.offs
                (xlist ++ secs.dropLast.map XSection.offs).reverse,
              oind, oprev, otd, w⟩ := by
  induction secs with
  | nil => intro hw; exact absurd hw (by simp [chainWF])
  | cons s rest ih =>
    intro hw xlist ind oind oprev otd w hx
    have hxe : xlist.isEmpty = false := by
      cases xlist with
      | nil => exact absurd rfl hx
      | cons a l => rfl
    cases rest with
    | nil =>
      have hp : s.prev = none := hw
      refine ⟨s, rfl, ?_⟩
      rw [chainLoopModel_cons]
      simp only [hp, hxe, hx, Bool.false_eq_true, if_false, and_false,
        List.dropLast_single, List.map_nil, List.append_nil]
    | cons r rest' =>
      obtain ⟨hps, hwr⟩ := hw
      obtain ⟨p, hp⟩ := Option.isSome_iff_exists.mp hps
      obtain ⟨last, hlast, heq⟩ :=
        ih hwr (xlist ++ [s.offs]) [] oind oprev otd w (by simp)
      refine ⟨last, ?_, ?_⟩
      · rw [List.getLast?_cons_cons]
        exact hlast
      · rw [chainLoopModel_cons]
        simp only [hp, hxe, hx, Bool.false_eq_true, if_false, and_false]
        rw [heq, List.append_assoc, List.singleton_append]
        rfl

/-- C1: in an incrementally-updated document whose trailer chain links
multiple xref sections via `/Prev`, after the chain loop completes the
lookup of any key in the merged offset table equals the lookup in the
first section (in chain order from the last `startxref`, i.e. the
most-recently-written one) whose per-section map binds the key
(`List.findSome?` over the chain); the indirect-object table is
restored to the snapshot taken after the first section's trailer was
read (starting from the empty table `__init__` creates), and the
adopted trailer is the first section's with its `/Prev` cleared.
Section maps carry distinct keys, as `parsexref` populates them by
insert-if-absent. -/
theorem c1_incremental_merge (s0 : XSection) (rest : List XSection)
    (hr : rest ≠ []) (hw : chainWF (s0 :: rest))
    (hc : ∀ s ∈ s0 :: rest, (s.offs.map Prod.fst).Nodup) (k : Key) :
    ∃ out, initChainModel (s0 :: rest) = some out ∧
      pmLookup out.offsets k =
        List.findSome? (fun s => pmLookup s.offs k) (s0 :: rest) ∧
      out.indirect = addPlaceholders [] s0.adds ∧
      out.trailerPrev = none ∧ out.trailerData = s0.tdata := by
  cases rest with
  | nil => exact absurd rfl hr
  | cons r rest' =>
    obtain ⟨hps, hwr⟩ := hw
    obtain ⟨p, hp⟩ := Option.isSome_iff_exists.mp hps
    obtain ⟨last, hlast, heq⟩ :=
      chainLoop_closed (r :: rest') hwr [s0.offs] [] (addPlaceholders [] s0.adds)
        none s0.tdata (if s0.tokAfter = false then 0 + 1 else 0) (by simp)
    have hstep : initChainModel (s0 :: r :: rest') =
        chainLoopModel (r :: rest') [s0.offs] []
          (some (addPlaceholders [] s0.adds, none, s0.tdata))
          (if s0.tokAfter = false then 0 + 1 else 0) := by
      show chainLoopModel (s0 :: r :: rest') [] [] none 0 = _
      rw [chainLoopModel_cons]
      simp only [hp, List.isEmpty_nil, if_true, and_true, List.nil_append]
    have hrl : (r :: rest').dropLast ++ [last] = r :: rest' := by
      have hne : (r : XSection) :: rest' ≠ [] := List.cons_ne_nil r rest'
      have h1 := List.dropLast_append_getLast hne
      have h2 : (r :: rest').getLast hne = last := by
        have := List.getLast?_eq_getLast (r :: rest') hne
        rw [this] at hlast
        exact Option.some.inj hlast
      rw [h2] at h1
      exact h1
    refine ⟨_, hstep.trans heq, ?_, rfl, rfl, rfl⟩
    show pmLookup (List.foldl pmUpdate last.offs
        ([s0.offs] ++ (r :: rest').dropLast.map XSection.offs).reverse) k = _
    rw [pmLookup_foldl _ _ _ ?side]
    case side =>
      intro o ho
      rw [List.mem_reverse, List.mem_append] at ho
      cases ho with
      | inl h =>
        rw [List.mem_singleton] at h
        subst h
        exact hc s0 (List.mem_cons_self s0 (r :: rest'))
      | inr h =>
        obtain ⟨s, hs, hso⟩ := List.mem_map.mp h
        subst hso
        exact hc s (List.mem_cons_of_mem s0
          ((List.dropLast_sublist (r :: rest')).subset hs))
    rw [List.reverse_reverse, List.findSome?_append, findSome?_singleton,
      List.findSome?_map, findSome?_cons_or, Option.or_assoc]
    congr 1
    conv_rhs => rw [← hrl]
    rw [List.findSome?_append, findSome?_singleton]
    rfl

/-- Witness for C1 at a concrete two-section chain: key (1,0) is bound
in both sections and resolves to the newest section's offset 100. -/
theorem c1_incremental_merge_witness :
    ∃ out, initChainModel [c1sectionA, c1sectionB] = some out ∧
      pmLookup out.offsets (1, 0) = some 100 ∧
      out.indirect = addPlaceholders [] c1sectionA.adds ∧
      out.trailerPrev = none ∧ out.trailerData = 7 := by
  obtain ⟨out, h1, h2, h3, h4, h5⟩ :=
    c1_incremental_merge c1sectionA [c1sectionB] (by simp)
      ⟨rfl, rfl⟩ (by decide) (1, 0)
  exact ⟨out, h1, h2.trans (by decide), h3, h4, h5⟩

/-- C7: evaluation of `loadindirect` at the bodiless object
`7 0 obj endobj`.  The token source IS rewound to just before the
terminator (`floc = 9`, the start of `endobj`), but because
`empty_obj` falls off its end without a return statement, the parsed
value is Python `None`: the `None` is stored in the indirect-object
table (a null value IS invented), the key leaves the deferred set, and
then `obj.indirect = key` raises `AttributeError` — `loadindirect`
does not return normally, contradicting the claim.  (The unused
`PdfObject=PdfObject` default argument of `empty_obj` and its
docstring show the intended behaviour is the claimed one; the missing
`return PdfObject()` is a slip in the code.) -/
theorem c7_empty_obj_attribute_error :
    (loadindirectF 100 c7state (7, 0)).2 = .error .attrError ∧
    ilookup (loadindirectF 100 c7state (7, 0)).1.indirect_objects (7, 0) =
      some .pnone ∧
    (loadindirectF 100 c7state (7, 0)).1.floc = 9 ∧
    (loadindirectF 100 c7state (7, 0)).1.deferred_objects.elts = [] :=
  ⟨rfl, rfl, rfl, rfl⟩

/-- C2 as stated is false at a concrete input: resolving key (5,0),
absent from the offset table, twice returns the null sentinel both
times but emits TWO warnings over the loader's lifetime (one per
call), not exactly one, and the key never leaves the deferred set. -/
theorem c2_warning_counterexample :
    (loadindirectF 1 c2state (5, 0)).2 = .ok .pnone ∧
    (loadindirectF 1 (loadindirectF 1 c2state (5, 0)).1 (5, 0)).2 = .ok .pnone ∧
    (loadindirectF 1 (loadindirectF 1 c2state (5, 0)).1 (5, 0)).1.warnings = 2 ∧
    (loadindirectF 1 (loadindirectF 1 c2state (5, 0)).1
        (5, 0)).1.deferred_objects.elts = [(5, 0)] :=
  ⟨rfl, rfl, rfl, rfl⟩

/-- C2 amended: (1) once a key's table entry is a non-placeholder (a
Resolved value, or a stored null), `loadindirect` returns the cached
value and changes no state — the key is never re-resolved, so
resolving it twice returns the same value; (2) a key whose entry is
still a placeholder and which is absent from the offset table resolves
to the null sentinel with one warning PER CALL: the failure is not
recorded in the table, the key stays in the deferred set (it leaves
only on successful resolution), and an immediately repeated resolution
returns the same null value and warns again. -/
theorem c2_resolution_amended :
    (∀ (fuel : Nat) (st : RState) (k : Key) (v : PObj),
      ilookup st.indirect_objects k = some v → v.isPref = false →
      loadindirectF fuel st k = (st, .ok v)) ∧
    (∀ (fuel : Nat) (st : RState) (k k0 : Key),
      ilookup st.indirect_objects k = some (.pref k0) →
      pmLookup st.obj_offsets k = none →
      loadindirectF fuel st k = (warn st, .ok .pnone) ∧
      loadindirectF fuel (warn st) k = (warn (warn st), .ok .pnone) ∧
      (warn st).indirect_objects = st.indirect_objects ∧
      (warn st).deferred_objects = st.deferred_objects ∧
      (warn st).warnings = st.warnings + 1) := by
  constructor
  · intro fuel st k v h1 h2
    simp [loadindirectF, h1, h2]
  · intro fuel st k k0 h1 h2
    have base : ∀ st' : RState,
        ilookup st'.indirect_objects k = some (.pref k0) →
        pmLookup st'.obj_offsets k = none →
        loadindirectF fuel st' k = (warn st', .ok .pnone) := by
      intro st' h1' h2'
      simp [loadindirectF, h1', PObj.isPref, loadindirectBodyF, h2']
    exact ⟨base st h1 h2, base (warn st) h1 h2, rfl, rfl, rfl⟩

/-- Witness for the amended C2 at concrete states: a cached resolved
value is returned unchanged, and a missing key yields the null
sentinel (with a warning) on both of two successive calls. -/
theorem c2_resolution_amended_witness :
    loadindirectF 1 c2resolvedState (3, 0) =
      (c2resolvedState, .ok (.pstr "42" (some (3, 0)))) ∧
    loadindirectF 1 c2state (5, 0) = (warn c2state, .ok .pnone) ∧
    loadindirectF 1 (warn c2state) (5, 0) = (warn (warn c2state), .ok .pnone) :=
  ⟨c2_resolution_amended.1 1 c2resolvedState (3, 0) (.pstr "42" (some (3, 0))) rfl rfl,
   (c2_resolution_amended.2 1 c2state (5, 0) (5, 0) rfl rfl).1,
   (c2_resolution_amended.2 1 c2state (5, 0) (5, 0) rfl rfl).2.1⟩

/-- C9 as stated is false at a concrete input: after a first `read_all`
on a state with a deferred key absent from the offset table, the
repeat call invokes `loadindirect` again on that key (non-empty
invocation log) and emits a fresh warning. -/
theorem c9_read_all_counterexample :
    (read_allF 3 1 c2state).2.1 = [(5, 0)] ∧
    (read_allF 3 1 c2state).1.warnings = 1 ∧
    (read_allF 3 1 (read_allF 3 1 c2state).1).2.1 = [(5, 0)] ∧
    (read_allF 3 1 (read_allF 3 1 c2state).1).1.warnings = 2 :=
  ⟨rfl, rfl, rfl, rfl⟩

/-- C9 amended: `read_all` is a no-op — no `loadindirect` invocations,
unchanged state, no new warnings — when called on a state whose
deferred set is empty; in particular a repeat call immediately after a
first call that resolved every deferred key is a no-op.  (When keys
failed to resolve, the repeat call re-attempts them, as the
counterexample shows.) -/
theorem c9_read_all_noop :
    (∀ (fuel pfuel : Nat) (st : RState), st.deferred_objects.elts = [] →
      read_allF (fuel + 1) pfuel st = (st, [], none)) ∧
    (∀ (f1 f2 pfuel : Nat) (st : RState),
      (read_allF f1 pfuel st).1.deferred_objects.elts = [] →
      read_allF (f2 + 1) pfuel (read_allF f1 pfuel st).1 =
        ((read_allF f1 pfuel st).1, [], none)) := by
  have base : ∀ (fuel pfuel : Nat) (st : RState),
      st.deferred_objects.elts = [] →
      read_allF (fuel + 1) pfuel st = (st, [], none) := by
    intro fuel pf st h
    show read_allLoopF (fuel + 1) pf st [] [] = _
    simp [read_allLoopF, h]
  exact ⟨base, fun f1 f2 pf st h => base f2 pf _ h⟩

/-- Witness for the amended C9 at a concrete state with an empty
deferred set: the call — and a repeat call after a first call — is a
no-op. -/
theorem c9_read_all_noop_witness :
    read_allF 1 1 c2resolvedState = (c2resolvedState, [], none) ∧
    read_allF 1 1 (read_allF 2 1 c2resolvedState).1 =
      ((read_allF 2 1 c2resolvedState).1, [], none) :=
  ⟨c9_read_all_noop.1 0 1 c2resolvedState rfl,
   c9_read_all_noop.2 2 0 1 c2resolvedState rfl⟩

theorem pbind_snd_error {α β : Type} (r : PRes α) (f : RState → α → PRes β)
    (e : PyExc) (h : r.2 = .error e) : (pbind r f).2 = .error e := by
  obtain ⟨st, x⟩ := r
  cases x with
  | ok a => exact absurd h (by simp)
  | error e' =>
    simp only at h
    rw [h]
    rfl

/-- The array loop of `readarray`, started at the loop's fixed point on
`c10state`, exhausts any fuel: each iteration re-reads the stray
`endobj`, rewinds, and appends a `None`. -/
theorem c10_array_diverges (n : Nat) :
    ∀ acc, (readarrayLoopF n c10arrState acc).2 = .error .fuelOut := by
  induction n with
  | zero => intro acc; rfl
  | succ m ih =>
    intro acc
    cases m with
    | zero => rfl
    | succ k => exact ih (acc ++ [.pnone])

/-- The array parse of `c10state` exhausts any fuel from its start. -/
theorem c10_array_diverges_start (n : Nat) :
    (readarrayLoopF n c10startState []).2 = .error .fuelOut := by
  cases n with
  | zero => rfl
  | succ m =>
    cases m with
    | zero => rfl
    | succ k => exact c10_array_diverges (k + 1) [.pnone]

/-- `loadindirect` on the `5 0 obj [ endobj` object exhausts any
fuel. -/
theorem c10_load_diverges (pf : Nat) :
    (loadindirectF pf c10state (5, 0)).2 = .error .fuelOut := by
  cases pf with
  | zero => rfl
  | succ n =>
    exact pbind_snd_error (readarrayLoopF n c10startState []) _ _
      (c10_array_diverges_start n)

/-- C10 as stated is false at a concrete input: `read_all` on the
loader state for `5 0 obj [ endobj` never completes, whatever fuel
the model is given — the sweep's `loadindirect` call loops forever in
`readarray` on the stray `endobj`. -/
theorem c10_read_all_counterexample : read_allDiverges c10state := by
  intro fuel pfuel
  cases fuel with
  | zero => rfl
  | succ n =>
    rcases hres : loadindirectF pfuel c10state (5, 0) with ⟨st', res⟩
    have hr2 : res = .error .fuelOut := by
      have h := c10_load_diverges pfuel
      rw [hres] at h
      exact h
    subst hr2
    have hk : loadKeysF pfuel c10state [(5, 0)] [] =
        (st', [(5, 0)], some .fuelOut) := by
      show (match loadindirectF pfuel c10state (5, 0) with
            | (st', .ok _) => loadKeysF pfuel st' [] [(5, 0)]
            | (st', .error e) => (st', [(5, 0)], some e)) = _
      rw [hres]
    have hstep : read_allF (n + 1) pfuel c10state =
        (match loadKeysF pfuel c10state [(5, 0)] [] with
         | (st', log', none) => read_allLoopF n pfuel st' [(5, 0)] log'
         | (st', log', some e) => (st', log', some e)) := rfl
    rw [hstep, hk]

/-- The invocation log of `loadKeysF` extends the incoming log by a
prefix of the keys it was given. -/
theorem loadKeysF_log (fuel : Nat) (ks : List Key) :
    ∀ (st : RState) (log : List Key),
    ∃ m, (loadKeysF fuel st ks log).2.1 = log ++ List.take m ks := by
  induction ks with
  | nil => intro st log; exact ⟨0, by simp [loadKeysF]⟩
  | cons k ks ih =>
    intro st log
    rcases hres : loadindirectF fuel st k with ⟨st', res⟩
    have hstep : loadKeysF fuel st (k :: ks) log =
        (match loadindirectF fuel st k with
         | (st', .ok _) => loadKeysF fuel st' ks (log ++ [k])
         | (st', .error e) => (st', log ++ [k], some e)) := rfl
    cases res with
    | ok a =>
      obtain ⟨m, hm⟩ := ih st' (log ++ [k])
      refine ⟨m + 1, ?_⟩
      rw [hstep, hres]
      simp only [hm, List.append_assoc, List.take_succ_cons,
        List.singleton_append]
    | error e =>
      refine ⟨1, ?_⟩
      rw [hstep, hres]
      simp [List.take_succ_cons]

/-- Within a single `read_all` call, the sweep loop never passes the
same key to `loadindirect` twice: keys attempted are absorbed into
`prev` and later sweeps only take keys outside `prev`. -/
theorem read_allLoopF_log_nodup (fuel : Nat) :
    ∀ (pfuel : Nat) (st : RState) (prev log : List Key),
    log.Nodup → (∀ k ∈ log, k ∈ prev) →
    (read_allLoopF fuel pfuel st prev log).2.1.Nodup := by
  induction fuel with
  | zero => intro pf st prev log h1 _; exact h1
  | succ n ih =>
    intro pf st prev log h1 h2
    have hstep : read_allLoopF (n + 1) pf st prev log =
        (let new := st.deferred_objects.elts.filter (fun k => decide (k ∉ prev))
         if new = [] then (st, log, none)
         else
           let prev' := prev ++ st.deferred_objects.elts.filter
             (fun k => decide (k ∉ prev))
           match loadKeysF pf st new log with
           | (st', log', none) => read_allLoopF n pf st' prev' log'
           | (st', log', some e) => (st', log', some e)) := rfl
    rw [hstep]
    by_cases hnew :
        st.deferred_objects.elts.filter (fun k => decide (k ∉ prev)) = []
    · simp only [hnew, if_pos rfl]
      exact h1
    · simp only [hnew, if_neg hnew]
      have hnodupnew :
          (st.deferred_objects.elts.filter (fun k => decide (k ∉ prev))).Nodup :=
        st.deferred_objects.nodup.filter _
      rcases hload : loadKeysF pf st
          (st.deferred_objects.elts.filter (fun k => decide (k ∉ prev))) log
        with ⟨st', log', res⟩
      obtain ⟨m, hm⟩ := loadKeysF_log pf
        (st.deferred_objects.elts.filter (fun k => decide (k ∉ prev))) st log
      rw [hload] at hm
      simp only at hm
      have hlog' : log'.Nodup := by
        rw [hm]
        refine List.Nodup.append h1 ((List.take_sublist _ _).nodup hnodupnew) ?_
        intro a ha ha'
        have hmem := (List.take_sublist _ _).subset ha'
        rw [List.mem_filter] at hmem
        exact (decide_eq_true_eq.mp hmem.2) (h2 a ha)
      cases res with
      | none =>
        refine ih pf st' _ log' hlog' ?_
        intro a ha
        rw [hm, List.mem_append] at ha
        cases ha with
        | inl h => exact List.mem_append_left _ (h2 a h)
        | inr h =>
          exact List.mem_append_right _ ((List.take_sublist _ _).subset h)
      | some e => exact hlog'

/-- C10 amended: within a single `read_all` call `loadindirect` is
invoked at most once per key (the invocation log has no duplicates,
for every state and every fuel), and the sweep loop exits as soon as a
sweep finds no not-yet-attempted key; but `read_all` does NOT
terminate on every loader state — it terminates only when every
`loadindirect` call it makes does, and the counterexample state makes
`loadindirect` run forever. -/
theorem c10_read_all_once_per_key :
    (∀ (fuel pfuel : Nat) (st : RState),
      (read_allF fuel pfuel st).2.1.Nodup) ∧
    (∀ (fuel pfuel : Nat) (st : RState) (prev log : List Key),
      st.deferred_objects.elts.filter (fun k => decide (k ∉ prev)) = [] →
      read_allLoopF (fuel + 1) pfuel st prev log = (st, log, none)) := by
  constructor
  · intro fuel pf st
    exact read_allLoopF_log_nodup fuel pf st [] [] List.nodup_nil (by simp)
  · intro fuel pf st prev log h
    have hstep : read_allLoopF (fuel + 1) pf st prev log =
        (let new := st.deferred_objects.elts.filter (fun k => decide (k ∉ prev))
         if new = [] then (st, log, none)
         else
           let prev' := prev ++ st.deferred_objects.elts.filter
             (fun k => decide (k ∉ prev))
           match loadKeysF pf st new log with
           | (st', log', none) => read_allLoopF fuel pf st' prev' log'
           | (st', log', some e) => (st', log', some e)) := rfl
    rw [hstep]
    simp only [h]
    rfl

/-- Witness for the amended C10: at a concrete state the invocation
log of `read_all` has no duplicates, and a sweep over a state whose
deferred keys are all in `prev` exits immediately. -/
theorem c10_read_all_once_per_key_witness :
    (read_allF 3 1 c2state).2.1.Nodup ∧
    read_allLoopF 1 1 c2state [(5, 0)] [(5, 0)] = (c2state, [(5, 0)], none) :=
  ⟨c10_read_all_once_per_key.1 3 1 c2state,
   c10_read_all_once_per_key.2 0 1 c2state [(5, 0)] [(5, 0)] (by decide)⟩

theorem nextTok_fields (st : RState) (t : String) (st' : RState)
    (h : nextTok st = some (t, st')) :
    st'.fdata = st.fdata ∧ st'.warnings = st.warnings ∧
    st'.errors = st.errors := by
  unfold nextTok at h
  rcases hf : st.toks.find? (fun pt => decide ((pt.1 : Int) ≥ st.floc))
    with _ | ⟨p, tt⟩
  · rw [hf] at h
    exact absurd h (by simp)
  · rw [hf] at h
    have h5 : st' =
        { st with floc := ((p + tt.length : Nat) : Int), tokstart := p } :=
      (congrArg Prod.snd (Option.some.inj h)).symm
    rw [h5]
    exact ⟨rfl, rfl, rfl⟩

theorem multipleTok_fields (n : Nat) : ∀ st : RState,
    (multipleTok n st).2.fdata = st.fdata ∧
    (multipleTok n st).2.warnings = st.warnings ∧
    (multipleTok n st).2.errors = st.errors := by
  induction n with
  | zero => intro st; exact ⟨rfl, rfl, rfl⟩
  | succ m ih =>
    intro st
    have hstep : multipleTok (m + 1) st =
        (match nextTok st with
         | none => ([], st)
         | some (t, st') =>
           let r := multipleTok m st'
           (t :: r.1, r.2)) := rfl
    rcases h : nextTok st with _ | ⟨t, st'⟩
    · rw [hstep, h]
      exact ⟨rfl, rfl, rfl⟩
    · obtain ⟨hf, hw, he⟩ := nextTok_fields st t st' h
      obtain ⟨hf', hw', he'⟩ := ih st'
      rw [hstep, h]
      exact ⟨hf'.trans hf, hw'.trans hw, he'.trans he⟩

theorem pyslice_length (l : List Char) (a b : Int) (ha : 0 ≤ a)
    (hab : a ≤ b) (hb : b ≤ (l.length : Int)) :
    ((pyslice l a b).length : Int) = b - a := by
  unfold pyslice sliceBound
  rw [if_neg (not_lt.mpr ha), if_neg (not_lt.mpr (ha.trans hab))]
  simp only [List.length_take, List.length_drop]
  omega

/-- C4: a stream object whose `/Length` is a correct integer token —
the two tokens at the declared payload end are exactly `endstream`
then `endobj` — stores as the payload exactly the `Length` bytes
starting at the payload start, emitting no warning and no error. -/
theorem c4_exact_stream (st : RState) (entries : List (String × PObj))
    (str0 : Option (List Char)) (ind : Option Key) (ss : Int)
    (lenstr : String) (ik : Option Key) (length : Int)
    (hlen : dlookup entries "/Length" = some (.pstr lenstr ik))
    (hint : pyIntS lenstr = some length)
    (hend : (multipleTok 2 { st with floc := ss + length }).1 =
      ["endstream", "endobj"])
    (h0 : 0 ≤ ss) (h1 : 0 ≤ length)
    (h2 : ss + length ≤ (st.fdata.length : Int)) :
    readstream st (.pdict entries str0 ind) ss =
      ((multipleTok 2 { st with floc := ss + length }).2,
       .ok (.pdict entries (some (pyslice st.fdata ss (ss + length))) ind)) ∧
    ((pyslice st.fdata ss (ss + length)).length : Int) = length ∧
    (multipleTok 2 { st with floc := ss + length }).2.warnings = st.warnings ∧
    (multipleTok 2 { st with floc := ss + length }).2.errors = st.errors := by
  obtain ⟨hfd, hw, he⟩ := multipleTok_fields 2 { st with floc := ss + length }
  refine ⟨?_, ?_, hw, he⟩
  · have hred : readstream st (.pdict entries str0 ind) ss =
        readstreamBody st entries ind ss length := by
      simp only [readstream, hlen, pyIntObj, hint]
    rw [hred]
    simp only [readstreamBody, hend, eq_self_iff_true, if_true, hfd]
  · have h3 : ss ≤ ss + length := by omega
    rw [pyslice_length st.fdata ss (ss + length) h0 h3 h2]
    omega

/-- Witness for C4: the concrete stream object of `c4state` (payload
start 32, `/Length 4`) yields exactly the payload `ABCD` with no
warning and no error. -/
theorem c4_exact_stream_witness :
    readstream c4state (.pdict [("/Length", .pstr "4" none)] none none) 32 =
      ((multipleTok 2 { c4state with floc := 36 }).2,
       .ok (.pdict [("/Length", .pstr "4" none)] (some "ABCD".data) none)) ∧
    (readstream c4state
      (.pdict [("/Length", .pstr "4" none)] none none) 32).1.warnings = 0 ∧
    (readstream c4state
      (.pdict [("/Length", .pstr "4" none)] none none) 32).1.errors = 0 := by
  obtain ⟨h1, h2, h3, h4⟩ :=
    c4_exact_stream c4state [("/Length", .pstr "4" none)] none none 32 "4" none 4
      rfl rfl rfl (by decide) (by decide) (by decide)
  refine ⟨?_, ?_, ?_⟩
  · rw [h1]
    rfl
  · rw [h1]
    rfl
  · rw [h1]
    rfl

/-- C5: a stream whose declared `/Length` disagrees with the gap to the
next literal `endstream` by exactly one byte, with `\r\n` immediately
before the payload start, is accepted by shifting the extraction
window back one byte: the payload has exactly `Length` bytes, exactly
one warning is emitted, no error is recorded, and no fatal outcome
occurs. -/
theorem c5_crlf_shift (st : RState) (entries : List (String × PObj))
    (str0 : Option (List Char)) (ind : Option Key) (ss : Int)
    (lenstr : String) (ik : Option Key) (length es : Int)
    (hlen : dlookup entries "/Length" = some (.pstr lenstr ik))
    (hint : pyIntS lenstr = some length)
    (hnotend : ¬ (multipleTok 2 { st with floc := ss + length }).1 =
      ["endstream", "endobj"])
    (hfind : pyfind st.fdata "endstream" ss ((st.fdata.length : Int) - 20) = es)
    (hpos : 0 ≤ es) (hroom : ss ≤ es)
    (hshift : length = es - ss + 1)
    (hcrlf : pyslice st.fdata (ss - 2) ss = ['\r', '\n'])
    (h0 : 1 ≤ ss) (h2 : ss + length - 1 ≤ (st.fdata.length : Int)) :
    readstream st (.pdict entries str0 ind) ss =
      (warn { (multipleTok 2 { st with floc := ss + length }).2 with
          warned_bad_stream_end := false, floc := ss },
       .ok (.pdict entries
         (some (pyslice st.fdata (ss - 1) (ss + length - 1))) ind)) ∧
    ((pyslice st.fdata (ss - 1) (ss + length - 1)).length : Int) = length ∧
    (warn { (multipleTok 2 { st with floc := ss + length }).2 with
        warned_bad_stream_end := false, floc := ss }).warnings =
      st.warnings + 1 ∧
    (warn { (multipleTok 2 { st with floc := ss + length }).2 with
        warned_bad_stream_end := false, floc := ss }).errors = st.errors := by
  obtain ⟨hfd, hw, he⟩ := multipleTok_fields 2 { st with floc := ss + length }
  refine ⟨?_, ?_, ?_, ?_⟩
  · have hred : readstream st (.pdict entries str0 ind) ss =
        readstreamBody st entries ind ss length := by
      simp only [readstream, hlen, pyIntObj, hint]
    rw [hred]
    simp only [readstreamBody, hfd]
    rw [if_neg hnotend, hfind, if_neg (not_lt.mpr hpos),
      if_pos (And.intro hshift hcrlf)]
  · have h3 : ss - 1 ≤ ss + length - 1 := by omega
    rw [pyslice_length st.fdata (ss - 1) (ss + length - 1) (by omega) h3 h2]
    omega
  · show (multipleTok 2 { st with floc := ss + length }).2.warnings + 1 =
      st.warnings + 1
    rw [hw]
  · show (multipleTok 2 { st with floc := ss + length }).2.errors = st.errors
    rw [he]

/-- Witness for C5 at `c5state`: payload start 33, `/Length 4`,
`endstream` at 36 (gap 3), bytes 31–32 are `\r\n`; the shifted payload
is the 4 bytes `\nAB\n` and exactly one warning is emitted. -/
theorem c5_crlf_shift_witness :
    readstream c5state (.pdict [("/Length", .pstr "4" none)] none none) 33 =
      (warn { (multipleTok 2 { c5state with floc := 37 }).2 with
          warned_bad_stream_end := false, floc := 33 },
       .ok (.pdict [("/Length", .pstr "4" none)] (some "\nAB\n".data) none)) ∧
    (readstream c5state
      (.pdict [("/Length", .pstr "4" none)] none none) 33).1.warnings = 1 ∧
    (readstream c5state
      (.pdict [("/Length", .pstr "4" none)] none none) 33).1.errors = 0 := by
  obtain ⟨h1, h2, h3, h4⟩ :=
    c5_crlf_shift c5state [("/Length", .pstr "4" none)] none none 33 "4" none
      4 36 rfl rfl (by decide) rfl (by decide) (by decide) (by decide)
      (by decide) (by decide) (by decide)
  refine ⟨?_, ?_, ?_⟩
  · rw [h1]
    rfl
  · rw [h1]
    rfl
  · rw [h1]
    rfl

/-- C6 as stated is false at a concrete input: with `/Length 9` but
only 3 bytes before the next `endstream`, `readstream` returns
normally (`.ok`, no exception aborts the operation) while recording
one error-severity diagnostic and storing the best-effort shorter
extraction `AB\n`. -/
theorem c6_not_fatal_counterexample :
    (readstream c6state
      (.pdict [("/Length", .pstr "9" none)] none none) 32).2 =
      .ok (.pdict [("/Length", .pstr "9" none)] (some "AB\n".data) none) ∧
    (readstream c6state
      (.pdict [("/Length", .pstr "9" none)] none none) 32).1.errors = 1 ∧
    (readstream c6state
      (.pdict [("/Length", .pstr "9" none)] none none) 32).1.warnings = 0 :=
  ⟨rfl, rfl, rfl⟩

/-- C6 amended: when the declared `/Length` exceeds the gap to the next
literal `endstream` (and the one-byte `\r\n` shift does not apply),
`readstream` records one non-fatal `Length too big` error-severity
diagnostic, stores the best-effort shorter extraction up to the found
`endstream`, and returns normally — the in-progress operation is NOT
aborted and no typed failure is raised (`source.error` is the
recorded, non-fatal channel of spec §6/§7). -/
theorem c6_length_too_big (st : RState) (entries : List (String × PObj))
    (str0 : Option (List Char)) (ind : Option Key) (ss : Int)
    (lenstr : String) (ik : Option Key) (length es : Int)
    (hlen : dlookup entries "/Length" = some (.pstr lenstr ik))
    (hint : pyIntS lenstr = some length)
    (hnotend : ¬ (multipleTok 2 { st with floc := ss + length }).1 =
      ["endstream", "endobj"])
    (hfind : pyfind st.fdata "endstream" ss ((st.fdata.length : Int) - 20) = es)
    (hpos : 0 ≤ es)
    (hnotshift : ¬ (length = es - ss + 1 ∧
      pyslice st.fdata (ss - 2) ss = ['\r', '\n']))
    (hbig : es - ss < length) :
    readstream st (.pdict entries str0 ind) ss =
      (recErr { (multipleTok 2 { st with floc := ss + length }).2 with
          warned_bad_stream_end := false, floc := es },
       .ok (.pdict entries (some (pyslice st.fdata ss es)) ind)) ∧
    (recErr { (multipleTok 2 { st with floc := ss + length }).2 with
        warned_bad_stream_end := false, floc := es }).errors =
      st.errors + 1 ∧
    (recErr { (multipleTok 2 { st with floc := ss + length }).2 with
        warned_bad_stream_end := false, floc := es }).warnings =
      st.warnings := by
  obtain ⟨hfd, hw, he⟩ := multipleTok_fields 2 { st with floc := ss + length }
  refine ⟨?_, ?_, ?_⟩
  · have hred : readstream st (.pdict entries str0 ind) ss =
        readstreamBody st entries ind ss length := by
      simp only [readstream, hlen, pyIntObj, hint]
    rw [hred]
    simp only [readstreamBody, hfd]
    rw [if_neg hnotend, hfind, if_neg (not_lt.mpr hpos), if_neg hnotshift,
      if_pos (by omega : length > es - ss)]
  · show (multipleTok 2 { st with floc := ss + length }).2.errors + 1 =
      st.errors + 1
    rw [he]
  · show (multipleTok 2 { st with floc := ss + length }).2.warnings =
      st.warnings
    rw [hw]

/-- Witness for the amended C6 at `c6state`: payload start 32,
`/Length 9`, `endstream` at 35 — one recorded error, shorter payload
`AB\n`, normal return. -/
theorem c6_length_too_big_witness :
    readstream c6state (.pdict [("/Length", .pstr "9" none)] none none) 32 =
      (recErr { (multipleTok 2 { c6state with floc := 41 }).2 with
          warned_bad_stream_end := false, floc := 35 },
       .ok (.pdict [("/Length", .pstr "9" none)] (some "AB\n".data) none)) := by
  obtain ⟨h1, h2, h3⟩ :=
    c6_length_too_big c6state [("/Length", .pstr "9" none)] none none 32 "9"
      none 9 35 rfl rfl (by decide) rfl (by decide) (by decide) (by decide)
  rw [h1]
  rfl

/-- C3 as stated is false at a concrete input: in `c3state` the first
xref section violates the strict grammar (count token `x`) and its own
byte range — up to the NEXT `trailer` at offset 28 — recovers cleanly
(last conjunct), but `parsexref` re-scans up to `rindex('trailer')`,
the LAST `trailer` at offset 51; the intervening `trailer` line is a
1-token line, so the whole section becomes a fatal
`Invalid table format` error rather than completing with a
`Badly formatted xref table` warning. -/
theorem c3_next_trailer_counterexample :
    (parsexrefF 10 c3state).2 = .error (.parseError "Invalid table format") ∧
    (parsexrefF 10 c3state).1.errors = 1 ∧
    (parsexrefF 10 c3state).1.warnings = 0 ∧
    pyrfind c3state.fdata "trailer" 4 = some 51 ∧
    pyfind c3state.fdata "trailer" 4 (c3state.fdata.length : Int) = 28 ∧
    recoverLines none (splitlines (pyslice c3state.fdata 4 28)) [] [] =
      .ok ([((0, 0), 15)], [15]) :=
  ⟨rfl, rfl, rfl, rfl, rfl, rfl⟩

/-- C3 amended: on a strict-grammar violation `parsexref` abandons
strict parsing and re-scans line by line from the section start up to
the LAST `trailer` occurrence in the file at or after it (which is the
next `trailer` only when no later one exists); 2-token lines reset the
current object number, 3-token lines insert (insert-if-absent) exactly
when the flag is `n` and the offset non-zero, any other non-empty line
makes the section a fatal table-format error, and on a well-formed
range recovery succeeds with every `n`-entry's offset recovered and
`f`-entries ignored, completing with one `Badly formatted xref table`
warning and no fatal error. -/
theorem c3_recovery_amended :
    (∀ (fuel : Nat) (st st₁ st' : RState) (e : PyExc),
      nextTok st = some ("xref", st₁) →
      parsexrefStrictF fuel st₁ = (st', .error e) → e ≠ .fuelOut →
      parsexrefF fuel st = xrefRecovery st' st₁.floc) ∧
    (∀ (st : RState) (start : Int) (e : Nat) (offs : PMap) (alls : List Int)
        (tk : String) (st'' : RState),
      pyrfind st.fdata "trailer" start = some e →
      recoverLines none (splitlines (pyslice st.fdata start (e : Int)))
        st.obj_offsets st.all_offsets = .ok (offs, alls) →
      nextTok { warn { st with obj_offsets := offs, all_offsets := alls } with
        floc := (e : Int) } = some (tk, st'') →
      xrefRecovery st start = (st'', .ok ())) ∧
    (∀ (onum : Option Int) (line : List Char) (rest : List (List Char))
        (offs : PMap) (alls : List Int) (a b : List Char) (v : Int),
      splitWs line = [a, b] → pyInt a = some v →
      recoverLines onum (line :: rest) offs alls =
        recoverLines (some v) rest offs alls) ∧
    (∀ (q : Int) (line : List Char) (rest : List (List Char)) (offs : PMap)
        (alls : List Int) (a b c : List Char) (off gen : Int),
      splitWs line = [a, b, c] → pyInt a = some off → pyInt b = some gen →
      off ≠ 0 → c = ['n'] →
      recoverLines (some q) (line :: rest) offs alls =
        recoverLines (some (q + 1)) rest (pmSetdefault offs (q, gen) off)
          (alls ++ [off])) ∧
    (∀ (q : Int) (line : List Char) (rest : List (List Char)) (offs : PMap)
        (alls : List Int) (a b c : List Char) (off gen : Int),
      splitWs line = [a, b, c] → pyInt a = some off → pyInt b = some gen →
      ¬ (off ≠ 0 ∧ c = ['n']) →
      recoverLines (some q) (line :: rest) offs alls =
        recoverLines (some (q + 1)) rest offs alls) ∧
    (∀ (onum : Option Int) (line : List Char) (rest : List (List Char))
        (offs : PMap) (alls : List Int),
      splitWs line ≠ [] → (splitWs line).length ≠ 2 →
      (splitWs line).length ≠ 3 →
      recoverLines onum (line :: rest) offs alls = .error (offs, alls, 1)) ∧
    (∀ (lines : List (List Char)) (onum : Option Int) (offs : PMap)
        (alls : List Int),
      wfLines onum lines →
      ∃ offs', recoverLines onum lines offs alls =
        .ok (offs', alls ++ nOffs lines)) := by
  refine ⟨?_, ?_, ?_, ?_, ?_, ?_, ?_⟩
  · intro fuel st st₁ st' e hnx hstrict hne
    unfold parsexrefF nextE pbind
    rw [hnx]
    dsimp only
    rw [if_neg (not_not_intro rfl), hstrict]
    cases e with
    | fuelOut => exact absurd rfl hne
    | parseError m => rfl
    | stopIteration => rfl
    | typeError => rfl
    | attrError => rfl
    | valueError => rfl
    | indexError => rfl
    | keyError => rfl
  · intro st start e offs alls tk st'' h1 h2 h3
    unfold xrefRecovery
    rw [h1]
    dsimp only
    rw [h2]
    dsimp only
    dsimp only at h3
    rw [h3]
  · intro onum line rest offs alls a b v hsp hv
    simp only [recoverLines, hsp, hv]
  · intro q line rest offs alls a b c off gen hsp ha hb hoff hc
    simp only [recoverLines, hsp, ha, hb]
    rw [if_pos (And.intro hoff hc)]
  · intro q line rest offs alls a b c off gen hsp ha hb hno
    simp only [recoverLines, hsp, ha, hb]
    rw [if_neg hno]
  · intro onum line rest offs alls h0 h2 h3
    rcases hsp : splitWs line with _ | ⟨x, _ | ⟨y, _ | ⟨z, _ | ⟨w, tail⟩⟩⟩⟩
    · exact absurd hsp h0
    · simp only [recoverLines, hsp]
    · exact absurd (by rw [hsp]; rfl : (splitWs line).length = 2) h2
    · exact absurd (by rw [hsp]; rfl : (splitWs line).length = 3) h3
    · simp only [recoverLines, hsp]
  · intro lines
    induction lines with
    | nil =>
      intro onum offs alls _
      exact ⟨offs, by simp [recoverLines, nOffs]⟩
    | cons l rest ih =>
      intro onum offs alls hwf
      rcases hsp : splitWs l with _ | ⟨x, _ | ⟨y, _ | ⟨z, _ | ⟨w, tail⟩⟩⟩⟩
      · simp only [wfLines, hsp] at hwf
        obtain ⟨offs', hrec⟩ := ih onum offs alls hwf
        exact ⟨offs', by simp only [recoverLines, hsp, nOffs, hrec]⟩
      · simp only [wfLines, hsp] at hwf
      · simp only [wfLines, hsp] at hwf
        obtain ⟨v, hv, hwf'⟩ := hwf
        obtain ⟨offs', hrec⟩ := ih (some v) offs alls hwf'
        exact ⟨offs', by simp only [recoverLines, hsp, hv, nOffs, hrec]⟩
      · simp only [wfLines, hsp] at hwf
        obtain ⟨⟨av, hav⟩, ⟨bv, hbv⟩, q, honum, hwf'⟩ := hwf
        subst honum
        by_cases hcase : av ≠ 0 ∧ z = ['n']
        · obtain ⟨offs', hrec⟩ :=
            ih (some (q + 1)) (pmSetdefault offs (q, bv) av) (alls ++ [av]) hwf'
          refine ⟨offs', ?_⟩
          simp only [recoverLines, hsp, hav, hbv, if_pos hcase, hrec,
            nOffs, List.append_assoc, List.singleton_append]
        · obtain ⟨offs', hrec⟩ := ih (some (q + 1)) offs alls hwf'
          refine ⟨offs', ?_⟩
          simp only [recoverLines, hsp, hav, hbv, if_neg hcase, hrec,
            nOffs]
      · simp only [wfLines, hsp] at hwf

/-- Witness for the amended C3 at concrete inputs: the malformed
single-`trailer` section of `c3okstate` falls back to recovery, which
succeeds with one warning, recovering the `n`-entry (0,0)↦15 and
ignoring nothing else; the individual line rules fire on concrete
lines; and a concrete well-formed range recovers its single `n`-entry
while ignoring its `f`-entry. -/
theorem c3_recovery_amended_witness :
    parsexrefF 10 c3okstate =
      xrefRecovery (parsexrefStrictF 10
        { c3okstate with floc := 4, tokstart := 0 }).1 4 ∧
    xrefRecovery c3okstate 4 =
      ({ c3okstate with
          obj_offsets := [((0, 0), 15)], all_offsets := [15],
          warnings := 1, floc := 35, tokstart := 28 },
       .ok ()) ∧
    recoverLines (some 9) ["5 z".data] [] [] =
      recoverLines (some 5) [] [] [] ∧
    recoverLines (some 2) ["0000000015 00000 n".data] [] [] =
      recoverLines (some 3) [] (pmSetdefault [] (2, 0) 15) [15] ∧
    recoverLines (some 2) ["0000000015 00000 f".data] [] [] =
      recoverLines (some 3) [] [] [] ∧
    recoverLines none ["junk".data] [] [] = .error ([], [], 1) ∧
    (∃ offs', recoverLines none
        ["0 x".data, "0000000015 00000 f".data, "0000000020 00000 n".data]
        [] [] = .ok (offs', [] ++ nOffs
          ["0 x".data, "0000000015 00000 f".data, "0000000020 00000 n".data])) := by
  refine ⟨?_, ?_, ?_, ?_, ?_, ?_, ?_⟩
  · exact c3_recovery_amended.1 10 c3okstate
      { c3okstate with floc := 4, tokstart := 0 }
      (parsexrefStrictF 10 { c3okstate with floc := 4, tokstart := 0 }).1
      .valueError rfl rfl (by decide)
  · exact c3_recovery_amended.2.1 c3okstate 4 28 [((0, 0), 15)] [15]
      "trailer" _ rfl rfl rfl
  · exact c3_recovery_amended.2.2.1 (some 9) "5 z".data [] [] []
      ['5'] ['z'] 5 rfl rfl
  · exact c3_recovery_amended.2.2.2.1 2 "0000000015 00000 n".data [] [] []
      "0000000015".data "00000".data ['n'] 15 0 rfl rfl rfl (by decide) rfl
  · exact c3_recovery_amended.2.2.2.2.1 2 "0000000015 00000 f".data [] [] []
      "0000000015".data "00000".data ['f'] 15 0 rfl rfl rfl (by decide)
  · exact c3_recovery_amended.2.2.2.2.2.1 none "junk".data [] [] []
      (by decide) (by decide) (by decide)
  · exact c3_recovery_amended.2.2.2.2.2.2
      ["0 x".data, "0000000015 00000 f".data, "0000000020 00000 n".data]
      none [] []
      ⟨0, rfl, ⟨15, rfl⟩, ⟨0, rfl⟩, 0, rfl, ⟨20, rfl⟩, ⟨0, rfl⟩, 1, rfl,
        trivial⟩

theorem nodeGet_err (v : PObj) (s : String) (e : PyExc)
    (h : nodeGet v s = .error e) : e = .typeError := by
  cases v with
  | pdict a b c => exact Except.noConfusion h
  | pstr s0 i =>
    injection h with h1
    exact h1.symm
  | parr l i =>
    injection h with h1
    exact h1.symm
  | pref k0 =>
    injection h with h1
    exact h1.symm
  | pnone =>
    injection h with h1
    exact h1.symm

theorem iterNode_err (v : PObj) (e : PyExc)
    (h : iterNode v = .error e) : e = .typeError := by
  cases v with
  | pdict a b c => exact Except.noConfusion h
  | pstr s0 i => exact Except.noConfusion h
  | parr l i => exact Except.noConfusion h
  | pref k0 =>
    injection h with h1
    exact h1.symm
  | pnone =>
    injection h with h1
    exact h1.symm

/-- The page-tree walk can only raise `TypeError` (or run out of model
fuel): every other exception kind is impossible, so the
`except (AttributeError, TypeError)` in `readpages` catches everything
the walk can raise. -/
theorem readnodeF_err_class (fuel : Nat) :
    (∀ (node : PObj) (e : PyExc) (k : Nat),
      readnodeF fuel node = .error (e, k) → e = .typeError ∨ e = .fuelOut) ∧
    (∀ (nodes : List PObj) (e : PyExc) (k : Nat),
      readnodesF fuel nodes = .error (e, k) → e = .typeError ∨ e = .fuelOut) := by
  induction fuel with
  | zero =>
    constructor
    · intro node e k h
      injection h with h1
      injection h1 with h2 h3
      exact Or.inr h2.symm
    · intro nodes e k h
      injection h with h1
      injection h1 with h2 h3
      exact Or.inr h2.symm
  | succ n ih =>
    obtain ⟨ihn, ihl⟩ := ih
    constructor
    · intro node e k h
      cases node with
      | pstr s i =>
        injection h with h1
        injection h1 with h2 h3
        exact Or.inl h2.symm
      | parr l i =>
        injection h with h1
        injection h1 with h2 h3
        exact Or.inl h2.symm
      | pref k0 =>
        injection h with h1
        injection h1 with h2 h3
        exact Or.inl h2.symm
      | pnone =>
        injection h with h1
        injection h1 with h2 h3
        exact Or.inl h2.symm
      | pdict entries strm it =>
        simp only [readnodeF, nodeGet] at h
        by_cases h1 : isName ((dlookup entries "/Type").getD .pnone) "/Page"
        · rw [if_pos h1] at h
          exact Except.noConfusion h
        · rw [if_neg h1] at h
          by_cases h2 : isName ((dlookup entries "/Type").getD .pnone) "/Pages"
          · rw [if_pos h2] at h
            rcases hit : iterNode ((dlookup entries "/Kids").getD .pnone)
              with e'' | children
            · rw [hit] at h
              injection h with hh
              injection hh with he hk
              exact Or.inl (he.symm.trans (iterNode_err _ _ hit))
            · rw [hit] at h
              exact ihl children e k h
          · rw [if_neg h2] at h
            by_cases h3 : isName ((dlookup entries "/Type").getD .pnone)
              "/Catalog"
            · rw [if_pos h3] at h
              exact ihn _ e k h
            · rw [if_neg h3] at h
              exact Except.noConfusion h
    · intro nodes e k h
      cases nodes with
      | nil => exact Except.noConfusion h
      | cons c cs =>
        simp only [readnodesF] at h
        rcases hc : readnodeF n c with ⟨e1, k1⟩ | ⟨ps, k1⟩
        · rw [hc] at h
          injection h with hh
          injection hh with he hk
          exact he ▸ ihn c e1 k1 hc
        · rw [hc] at h
          rcases hcs : readnodesF n cs with ⟨e2, k2⟩ | ⟨ps2, k2⟩
          · rw [hcs] at h
            injection h with hh
            injection hh with he hk
            exact he ▸ ihl cs e2 k2 hcs
          · rw [hcs] at h
            exact Except.noConfusion h

/-- C8: page-tree flattening never raises a fatal error.  (1) A
dictionary node whose `/Type` is none of `/Page`, `/Pages`, `/Catalog`
(a missing `/Type` gives the null value and falls here too)
contributes zero pages and one logged error, raising nothing.  (2) A
non-dictionary node raises `TypeError`, which `readpages` catches,
yielding the empty page list with one more logged error.  (3) In
general, the only exception the walk can raise is `TypeError` (or the
fuel artifact of the model), and whenever the walk fails with
`TypeError` the page list is empty and the load does not abort. -/
theorem c8_readpages_no_fatal :
    (∀ (fuel : Nat) (entries : List (String × PObj))
        (strm : Option (List Char)) (it : Option Key),
      ¬ isName ((dlookup entries "/Type").getD .pnone) "/Page" →
      ¬ isName ((dlookup entries "/Type").getD .pnone) "/Pages" →
      ¬ isName ((dlookup entries "/Type").getD .pnone) "/Catalog" →
      readnodeF (fuel + 1) (.pdict entries strm it) = .ok ([], 1)) ∧
    (∀ (fuel : Nat) (node : PObj), node.isPdict = false →
      readnodeF (fuel + 1) node = .error (.typeError, 0) ∧
      readpagesF (fuel + 1) node = .ok ([], 1)) ∧
    (∀ (fuel : Nat) (node : PObj) (e : PyExc) (k : Nat),
      readnodeF fuel node = .error (e, k) →
      (e = .typeError ∨ e = .fuelOut) ∧
      (e = .typeError → readpagesF fuel node = .ok ([], k + 1))) := by
  refine ⟨?_, ?_, ?_⟩
  · intro fuel entries strm it h1 h2 h3
    simp only [readnodeF, nodeGet]
    rw [if_neg h1, if_neg h2, if_neg h3]
  · intro fuel node hnd
    cases node with
    | pdict a b c => exact absurd hnd (by simp [PObj.isPdict])
    | pstr s i => exact ⟨rfl, rfl⟩
    | parr l i => exact ⟨rfl, rfl⟩
    | pref k0 => exact ⟨rfl, rfl⟩
    | pnone => exact ⟨rfl, rfl⟩
  · intro fuel node e k h
    refine ⟨(readnodeF_err_class fuel).1 node e k h, ?_⟩
    intro he
    subst he
    simp only [readpagesF, h]

/-- Witness for C8 at concrete nodes: a `/Junk`-typed dictionary
yields zero pages and one logged error; a string node raises the
caught `TypeError` and `readpages` yields the empty list; the
classification applies to the `None` node. -/
theorem c8_readpages_no_fatal_witness :
    readnodeF 1 (.pdict [("/Type", .pstr "/Junk" none)] none none) =
      .ok ([], 1) ∧
    (readnodeF 1 (.pstr "zzz" none) = .error (.typeError, 0) ∧
      readpagesF 1 (.pstr "zzz" none) = .ok ([], 1)) ∧
    ((PyExc.typeError = .typeError ∨ PyExc.typeError = .fuelOut) ∧
      (PyExc.typeError = .typeError → readpagesF 1 .pnone = .ok ([], 0 + 1))) :=
  ⟨c8_readpages_no_fatal.1 0 [("/Type", .pstr "/Junk" none)] none none
      (by decide) (by decide) (by decide),
   c8_readpages_no_fatal.2.1 0 (.pstr "zzz" none) rfl,
   c8_readpages_no_fatal.2.2 1 .pnone .typeError 0 rfl⟩

end Pdfrw
